import Mathlib

/-!
# Scalar logic and comparison operators of `pkg/pivot/operator.go`

A shallow embedding of the operator table of the pivot package: the truthiness
converter `ConvertToBoolOrNull`, the comparator `compare`, the three logical
operators `LogicXor`, `LogicAnd`, `LogicOr` and the six relational operators
`Gt`, `Lt`, `Ne`, `Eq`, `Ge`, `Le`.

Conventions of the embedding:

* a Go `panic` is the result `none`; a normal return is `some _`;
* the pair `(ValueExpr, error)` returned by an operator is a Lean pair whose
  second component is `none` for a `nil` error;
* the imported comparison `Datum.CompareDatum` is not part of the package, so
  every definition that calls it takes it as the argument `cmp`;
* `int8` and `int` arithmetic wraps explicitly.
-/

namespace Pivot

/-! ## Data model -/

/-- Kinds of a datum that the package distinguishes; `KindOther` stands for every
further kind code of the host type system. -/
inductive Kind
  | KindNull
  | KindInt64
  | KindUint64
  | KindFloat32
  | KindFloat64
  | KindString
  | KindMysqlDecimal
  | KindMysqlTime
  | KindOther (code : Nat)
  deriving DecidableEq, Repr

/-- Value of a Go floating point number, decoded: not-a-number, an infinity, or the
finite value `(-1)^neg * m * 2^e`. A `float32` widened to `float64` keeps its
decoded value, so both widths share this type. -/
inductive GoFloat
  | nan
  | inf (neg : Bool)
  | fin (neg : Bool) (m : Nat) (e : Int)
  deriving DecidableEq, Repr

namespace GoFloat

/-- Go `math.Abs`: clears the sign, keeps not-a-number. -/
def Abs : GoFloat → GoFloat
  | nan => nan
  | inf _ => inf false
  | fin _ m e => fin false m e

/-- Signed mantissa of a finite value rescaled to the exponent `k` (with `k ≤ e`). -/
def scaled (neg : Bool) (m : Nat) (e k : Int) : Int :=
  (if neg then -(m : Int) else (m : Int)) * 2 ^ (e - k).toNat

/-- Go `x >= y` on floating point numbers: false as soon as one side is
not-a-number, otherwise the order of the extended reals. -/
def ge : GoFloat → GoFloat → Bool
  | nan, _ => false
  | _, nan => false
  | inf nx, inf ny => !nx || ny
  | inf nx, fin _ _ _ => !nx
  | fin _ _ _, inf ny => ny
  | fin nx mx ex, fin ny my ey =>
      decide (scaled ny my ey (min ex ey) ≤ scaled nx mx ex (min ex ey))

/-- The constant `1`. -/
def one : GoFloat := fin false 1 0

/-- Rational value of a finite floating point number. -/
def toRat (neg : Bool) (m : Nat) (e : Int) : ℚ :=
  (if neg then -1 else 1) * (m : ℚ) * (2 : ℚ) ^ e

/-- Magnitude at least one, read on the decoded value: an infinity qualifies, a
not-a-number does not, a finite number qualifies when its absolute value is `≥ 1`. -/
def AbsGeOne : GoFloat → Prop
  | nan => False
  | inf _ => True
  | fin neg m e => 1 ≤ |toRat neg m e|

end GoFloat

/-- Fixed point decimal of the host type system: a sign and a buffer of base `10^9`
words, most significant first, the last `fracWords` of which hold the fraction. -/
structure MyDecimal where
  negative : Bool
  fracWords : Nat
  wordBuf : List Nat
  deriving DecidableEq, Repr

namespace MyDecimal

/-- Host `IsZero`: every word of the buffer is zero. -/
def IsZero (d : MyDecimal) : Bool :=
  d.wordBuf.all (fun w => w == 0)

/-- Unscaled magnitude of the word buffer. -/
def magnitude (ws : List Nat) : Nat :=
  ws.foldl (fun acc w => acc * 10 ^ 9 + w) 0

/-- Rational value of a decimal. -/
def toRat (d : MyDecimal) : ℚ :=
  (if d.negative then -1 else 1) * (magnitude d.wordBuf : ℚ) / (10 : ℚ) ^ (9 * d.fracWords)

end MyDecimal

/-- A scalar value (`parser_driver.ValueExpr`, a tagged datum). -/
inductive ValueExpr
  | null
  | int64 (v : Int)
  | uint64 (v : Nat)
  | float32 (v : GoFloat)
  | float64 (v : GoFloat)
  | string (s : String)
  | decimal (d : MyDecimal)
  | datetime (t : Nat)
  | other (code : Nat)
  deriving DecidableEq, Repr

/-- Go `a.Kind()`. -/
def ValueExpr.Kind : ValueExpr → Kind
  | .null => .KindNull
  | .int64 _ => .KindInt64
  | .uint64 _ => .KindUint64
  | .float32 _ => .KindFloat32
  | .float64 _ => .KindFloat64
  | .string _ => .KindString
  | .decimal _ => .KindMysqlDecimal
  | .datetime _ => .KindMysqlTime
  | .other c => .KindOther c

/-- A Go `error` value; `none` is `nil`. -/
abbrev GoError := Option String

/-- Go `e.SetNull()` and `e.SetValue(nil)` on a fresh value. -/
def SetNull : ValueExpr := .null

/-- Go `e.SetValue(b)` for a `bool` on a fresh value: the host stores a boolean as
the integer `1` or `0`. -/
def SetValue (b : Bool) : ValueExpr := .int64 (if b then 1 else 0)

/-! ## Regular expressions of the `regexp` package (the fragment the pattern uses) -/

/-- Syntax of the regular expressions used by the package. -/
inductive Regexp
  | beginText
  | lit (c : Char)
  | cls (lo hi : Char)
  | cat (r s : Regexp)
  | alt (r s : Regexp)
  | rep01 (r : Regexp)
  | plus (r : Regexp)
  deriving Repr

/-- A position in the text: how many characters were consumed, and what remains. -/
abbrev Cursor := Nat × List Char

/-- One or more iterations of a matcher `f`; an iteration that consumes nothing is
not repeated, and `fuel` bounds the number of iterations. -/
def plusIter (f : Cursor → List Cursor) : Nat → Cursor → List Cursor
  | 0, _ => []
  | fuel + 1, c =>
      (f c).flatMap (fun d => d :: (if c.1 < d.1 then plusIter f fuel d else []))

/-- All cursors at which a match of `r` that starts at the given cursor can end. -/
def matchAt : Regexp → Cursor → List Cursor
  | .beginText, c => if c.1 = 0 then [c] else []
  | .lit a, c =>
      match c.2 with
      | [] => []
      | x :: xs => if x = a then [(c.1 + 1, xs)] else []
  | .cls lo hi, c =>
      match c.2 with
      | [] => []
      | x :: xs => if lo ≤ x ∧ x ≤ hi then [(c.1 + 1, xs)] else []
  | .cat r s, c => (matchAt r c).flatMap (fun d => matchAt s d)
  | .alt r s, c => matchAt r c ++ matchAt s c
  | .rep01 r, c => matchAt r c ++ [c]
  | .plus r, c => plusIter (fun d => matchAt r d) (c.2.length + 1) c

/-- Whether some match of `r` starts at the cursor or at a later position. -/
def searchFrom (r : Regexp) : Nat → List Char → Bool
  | p, [] => !(matchAt r (p, [])).isEmpty
  | p, x :: xs => !(matchAt r (p, x :: xs)).isEmpty || searchFrom r (p + 1) xs

/-- Go `regexp.MatchString`: the text contains a match of the pattern. -/
def MatchString (r : Regexp) (s : String) : Bool :=
  searchFrom r 0 s.toList

/-- The pattern of the truthiness converter, written in the source as
`^\-{0,1}[1-9]+|^\-{0,1}0+[1-9]`. -/
def truthyPattern : Regexp :=
  .alt
    (.cat (.cat .beginText (.rep01 (.lit '-'))) (.plus (.cls '1' '9')))
    (.cat (.cat (.cat .beginText (.rep01 (.lit '-'))) (.plus (.lit '0'))) (.cls '1' '9'))

/-! ## The truthiness converter -/

/-- Go `ConvertToBoolOrNull`: `-1` null, `0` false, `1` true; `none` is the panic
of the default branch. -/
def ConvertToBoolOrNull (a : ValueExpr) : Option Int :=
  match a with
  | .null => some (-1)
  | .int64 v => if v ≠ 0 then some 1 else some 0
  | .uint64 v => if v ≠ 0 then some 1 else some 0
  | .float32 v => if GoFloat.ge (GoFloat.Abs v) GoFloat.one then some 1 else some 0
  | .float64 v => if GoFloat.ge (GoFloat.Abs v) GoFloat.one then some 1 else some 0
  | .string s => if MatchString truthyPattern s then some 1 else some 0
  | .decimal d => if d.IsZero then some 0 else some 1
  | .datetime _ => none
  | .other _ => none

/-! ## The comparator -/

/-- Go `-i` on an `int` of 64 bits. -/
def negInt (i : Int) : Int := (-i + 2 ^ 63) % 2 ^ 64 - 2 ^ 63

/-- Go `compare`. The argument `cmp` is the imported `CompareDatum`, returning its
result and its error; `none` is the panic at the end of the error branch. -/
def compare (cmp : ValueExpr → ValueExpr → Int × GoError) (a b : ValueExpr) : Option Int :=
  let zero := ValueExpr.int64 0
  if (cmp a b).2 ≠ none then
    match a.Kind with
    | .KindFloat32 | .KindFloat64 | .KindInt64 | .KindUint64 =>
        match b.Kind with
        | .KindString =>
            if (cmp a zero).2 = none then some (cmp a zero).1 else none
        | _ => none
    | .KindString =>
        match b.Kind with
        | .KindFloat32 | .KindFloat64 | .KindInt64 | .KindUint64 =>
            if (cmp b zero).2 = none then some (negInt (cmp b zero).1) else none
        | _ => none
    | _ => none
  else some (cmp a b).1

/-! ## The operators -/

/-- Go `int8` product of two `int8` values. -/
def mulInt8 (x y : Int) : Int := (x * y + 128) % 256 - 128

/-- Go `LogicXor.Eval`. -/
def LogicXor (a b : ValueExpr) : Option (ValueExpr × GoError) :=
  if a.Kind = .KindNull ∨ b.Kind = .KindNull then some (SetNull, none)
  else do
    let boolA ← ConvertToBoolOrNull a
    let boolB ← ConvertToBoolOrNull b
    some (SetValue (decide (boolA ≠ boolB)), none)

/-- Go `LogicAnd.Eval`. -/
def LogicAnd (a b : ValueExpr) : Option (ValueExpr × GoError) := do
  let boolA ← ConvertToBoolOrNull a
  let boolB ← ConvertToBoolOrNull b
  if mulInt8 boolA boolB = 0 then some (SetValue false, none)
  else if boolA = -1 ∨ boolB = -1 then some (SetNull, none)
  else some (SetValue true, none)

/-- Go `LogicOr.Eval`. -/
def LogicOr (a b : ValueExpr) : Option (ValueExpr × GoError) := do
  let boolA ← ConvertToBoolOrNull a
  let boolB ← ConvertToBoolOrNull b
  if boolA = 1 ∨ boolB = 1 then some (SetValue true, none)
  else if boolA = -1 ∨ boolB = -1 then some (SetNull, none)
  else some (SetValue false, none)

/-- Go `Gt.Eval`. -/
def Gt (cmp : ValueExpr → ValueExpr → Int × GoError) (a b : ValueExpr) :
    Option (ValueExpr × GoError) :=
  if a.Kind = .KindNull ∨ b.Kind = .KindNull then some (SetNull, none)
  else do
    let c ← compare cmp a b
    some (SetValue (decide (c > 0)), none)

/-- Go `Lt.Eval`. -/
def Lt (cmp : ValueExpr → ValueExpr → Int × GoError) (a b : ValueExpr) :
    Option (ValueExpr × GoError) :=
  if a.Kind = .KindNull ∨ b.Kind = .KindNull then some (SetNull, none)
  else do
    let c ← compare cmp a b
    some (SetValue (decide (c < 0)), none)

/-- Go `Ne.Eval`. -/
def Ne (cmp : ValueExpr → ValueExpr → Int × GoError) (a b : ValueExpr) :
    Option (ValueExpr × GoError) :=
  if a.Kind = .KindNull ∨ b.Kind = .KindNull then some (SetNull, none)
  else do
    let c ← compare cmp a b
    some (SetValue (decide (c ≠ 0)), none)

/-- Go `Eq.Eval`. -/
def Eq (cmp : ValueExpr → ValueExpr → Int × GoError) (a b : ValueExpr) :
    Option (ValueExpr × GoError) :=
  if a.Kind = .KindNull ∨ b.Kind = .KindNull then some (SetNull, none)
  else do
    let c ← compare cmp a b
    some (SetValue (decide (c = 0)), none)

/-- Go `Ge.Eval`. -/
def Ge (cmp : ValueExpr → ValueExpr → Int × GoError) (a b : ValueExpr) :
    Option (ValueExpr × GoError) :=
  if a.Kind = .KindNull ∨ b.Kind = .KindNull then some (SetNull, none)
  else do
    let c ← compare cmp a b
    some (SetValue (decide (c ≥ 0)), none)

/-- Go `Le.Eval`. -/
def Le (cmp : ValueExpr → ValueExpr → Int × GoError) (a b : ValueExpr) :
    Option (ValueExpr × GoError) :=
  if a.Kind = .KindNull ∨ b.Kind = .KindNull then some (SetNull, none)
  else do
    let c ← compare cmp a b
    some (SetValue (decide (c ≤ 0)), none)

/-! ## A host comparison, for concrete evaluation -/

/-- Host `CompareInt64`: the sign of `x - y`. -/
def CompareInt64 (x y : Int) : Int :=
  if x < y then -1 else if x = y then 0 else 1

/-- Host `CompareFloat64`: `-1` when `x < y`, `0` when `x == y`, else `1`. -/
def CompareFloat64 (x y : GoFloat) : Int :=
  if GoFloat.ge y x && !GoFloat.ge x y then -1
  else if GoFloat.ge x y && GoFloat.ge y x then 0 else 1

/-- Value of a decimal digit character. -/
def digitValue (c : Char) : Option Nat :=
  if '0' ≤ c ∧ c ≤ '9' then some (c.toNat - 48) else none

/-- Reads a non-empty run of decimal digits that makes up the whole text. -/
def parseDigits : List Char → Nat → Option Nat
  | [], _ => none
  | [c], acc => (digitValue c).map (fun d => acc * 10 + d)
  | c :: cs, acc => (digitValue c).bind (fun d => parseDigits cs (acc * 10 + d))

/-- Reads a text that is exactly an integer literal, with an optional minus sign. -/
def parseInteger : List Char → Option Int
  | '-' :: cs => (parseDigits cs 0).map (fun n => -(n : Int))
  | cs => (parseDigits cs 0).map (fun n => (n : Int))

/-- The integer `n` as a floating point value. -/
def floatOfInt (n : Int) : GoFloat := .fin (decide (n < 0)) n.natAbs 0

/-- Numeric reading of a value for the host comparison: numbers by value, a string
when it is an integer literal. -/
def numericValue : ValueExpr → Option GoFloat
  | .int64 v => some (floatOfInt v)
  | .uint64 v => some (floatOfInt v)
  | .float32 v => some v
  | .float64 v => some v
  | .string s => (parseInteger s.toList).map floatOfInt
  | _ => none

/-- Lexical order of two texts, as a sign. -/
def compareText : List Char → List Char → Int
  | [], [] => 0
  | [], _ :: _ => -1
  | _ :: _, [] => 1
  | x :: xs, y :: ys => if x < y then -1 else if y < x then 1 else compareText xs ys

/-- Modelled from the spec: the direct comparison of the host type system (the
imported `CompareDatum`, whose code is not part of the package). Numeric kinds
compare by value, strings compare lexically with each other and numerically with a
number when they read as an integer, datetimes compare chronologically, decimals
compare by value; every other pair is undefined and yields an error. -/
def hostCompareDatum (a b : ValueExpr) : Int × GoError :=
  match a, b with
  | .int64 x, .int64 y => (CompareInt64 x y, none)
  | .uint64 x, .uint64 y => (CompareInt64 x y, none)
  | .string s, .string t => (compareText s.toList t.toList, none)
  | .datetime s, .datetime t => (CompareInt64 s t, none)
  | .decimal d, .decimal e =>
      (CompareInt64
        ((if d.negative then -1 else 1) * (MyDecimal.magnitude d.wordBuf : Int)
          * 10 ^ (9 * e.fracWords))
        ((if e.negative then -1 else 1) * (MyDecimal.magnitude e.wordBuf : Int)
          * 10 ^ (9 * d.fracWords)), none)
  | _, _ =>
      match numericValue a, numericValue b with
      | some x, some y => (CompareFloat64 x y, none)
      | _, _ => (0, some "undefined comparison")

/-- A host comparison that agrees with `hostCompareDatum` wherever that one is
defined, and carries the result `7` beside its error wherever it is undefined. -/
def hostCompareDatumCarrying (a b : ValueExpr) : Int × GoError :=
  if (hostCompareDatum a b).2 = none then hostCompareDatum a b
  else (7, (hostCompareDatum a b).2)

/-! ## Kind classes used by the case lists -/

/-- The numeric kinds listed by the two `case` lines of `compare`. -/
def Kind.isNumeric : Kind → Bool
  | .KindFloat32 | .KindFloat64 | .KindInt64 | .KindUint64 => true
  | _ => false

/-- The kinds that have a `case` in `ConvertToBoolOrNull`. -/
def Kind.isSupported : Kind → Bool
  | .KindNull | .KindInt64 | .KindUint64 | .KindFloat32 | .KindFloat64 | .KindString
  | .KindMysqlDecimal => true
  | _ => false

/-- Feeding the result of an operator call back as the left operand of `op`. -/
def feedLeft (r : Option (ValueExpr × GoError))
    (op : ValueExpr → ValueExpr → Option (ValueExpr × GoError)) (c : ValueExpr) :
    Option (ValueExpr × GoError) :=
  r.bind (fun v => op v.1 c)

/-- Feeding the result of an operator call back as the right operand of `op`. -/
def feedRight (a : ValueExpr)
    (op : ValueExpr → ValueExpr → Option (ValueExpr × GoError))
    (r : Option (ValueExpr × GoError)) : Option (ValueExpr × GoError) :=
  r.bind (fun v => op a v.1)

/-! ## The reading of the pattern in words -/

/-- A text that begins with a run of zero or more `0` characters followed by a
non-zero digit `1`..`9`. -/
def ZerosThenDigit (t : List Char) : Prop :=
  ∃ (k : Nat) (d : Char) (rest : List Char),
    ('1' ≤ d ∧ d ≤ '9') ∧ t = List.replicate k '0' ++ d :: rest

/-- A text that begins with an optional single minus sign, then a run of zero or more
`0` characters, then a non-zero digit `1`..`9`; what follows that digit is free. -/
def LeadingNonZeroDigit (s : List Char) : Prop :=
  ∃ (sign : List Char) (t : List Char),
    (sign = [] ∨ sign = ['-']) ∧ ZerosThenDigit t ∧ s = sign ++ t

example : ConvertToBoolOrNull (.string "5") = some 1 := by decide
example : ConvertToBoolOrNull (.string "0") = some 0 := by decide
example : ConvertToBoolOrNull (.string "-3") = some 1 := by decide
example : ConvertToBoolOrNull (.string "abc") = some 0 := by decide
example : ConvertToBoolOrNull (.string "1e5") = some 1 := by decide
example : ConvertToBoolOrNull (.string "0.5") = some 0 := by decide
example : ConvertToBoolOrNull (.string "-0007x") = some 1 := by decide
example : ConvertToBoolOrNull (.string "--5") = some 0 := by decide
example : ConvertToBoolOrNull (.float64 (.fin true 1 (-1))) = some 0 := by decide
example : ConvertToBoolOrNull (.float64 (.fin true 1 0)) = some 1 := by decide

example : compare hostCompareDatum (.int64 5) (.string "abc") = some 1 := by decide
example : compare hostCompareDatum (.string "abc") (.int64 5) = some (-1) := by decide
example : compare hostCompareDatum (.int64 5) (.string "7") = some (-1) := by decide
example : compare hostCompareDatum (.decimal ⟨false, 0, [1]⟩) (.string "abc") = none := by decide
example : compare hostCompareDatum (.float64 (.fin false 3 (-1))) (.int64 1) = some 1 := by decide
example : Lt hostCompareDatum (.int64 3) (.int64 5) = some (SetValue true, none) := by decide
example : LogicAnd (.int64 0) .null = some (SetValue false, none) := by decide
example : LogicOr (.int64 2) .null = some (SetValue true, none) := by decide
example : LogicXor (.int64 2) .null = some (SetNull, none) := by decide

/-! ## Basic facts about the converter -/

/-- The converter only produces the three truthiness codes. -/
theorem convert_code (a : ValueExpr) (x : Int) (h : ConvertToBoolOrNull a = some x) :
    x = -1 ∨ x = 0 ∨ x = 1 := by
  cases a <;> simp only [ConvertToBoolOrNull] at h <;> first
    | (split at h <;> simp at h <;> omega)
    | (simp at h; omega)
    | simp at h

/-- The `int8` product of two truthiness codes vanishes exactly when a code is `0`. -/
theorem mulInt8_code (x y : Int) (hx : x = -1 ∨ x = 0 ∨ x = 1) (hy : y = -1 ∨ y = 0 ∨ y = 1) :
    mulInt8 x y = 0 ↔ x = 0 ∨ y = 0 := by
  rcases hx with rfl | rfl | rfl <;> rcases hy with rfl | rfl | rfl <;> decide

/-- The converter returns null exactly on the null kind. -/
theorem convert_null_iff (a : ValueExpr) :
    ConvertToBoolOrNull a = some (-1) ↔ a.Kind = .KindNull := by
  cases a <;> simp only [ConvertToBoolOrNull, ValueExpr.Kind] <;> first
    | (split <;> simp)
    | simp

/-! ## The logical operators -/

/-- C1: for operands of supported kinds with truthiness codes `x` and `y`, the `int8`
test `boolA*boolB == 0` holds exactly when a code is False; `LogicAnd` returns False
when a code is False (whatever the other code, null included), otherwise Null when
a code is Null, otherwise True; the error component is nil. -/
theorem LogicAnd_three_valued (a b : ValueExpr) (x y : Int)
    (ha : ConvertToBoolOrNull a = some x) (hb : ConvertToBoolOrNull b = some y) :
    (mulInt8 x y = 0 ↔ x = 0 ∨ y = 0) ∧
    (x = 0 ∨ y = 0 → LogicAnd a b = some (SetValue false, none)) ∧
    (¬ (x = 0 ∨ y = 0) → x = -1 ∨ y = -1 → LogicAnd a b = some (SetNull, none)) ∧
    (¬ (x = 0 ∨ y = 0) → ¬ (x = -1 ∨ y = -1) → LogicAnd a b = some (SetValue true, none)) := by
  have hm := mulInt8_code x y (convert_code a x ha) (convert_code b y hb)
  refine ⟨hm, ?_, ?_, ?_⟩
  · intro h
    simp [LogicAnd, ha, hb, hm.mpr h]
  · intro h0 h1
    have hm0 : ¬ mulInt8 x y = 0 := fun h => h0 (hm.mp h)
    simp [LogicAnd, ha, hb, hm0, h1]
  · intro h0 h1
    have hm0 : ¬ mulInt8 x y = 0 := fun h => h0 (hm.mp h)
    simp [LogicAnd, ha, hb, hm0, h1]

/-- Instance of C1: a False operand wins over a Null operand. -/
theorem LogicAnd_three_valued_witness :
    ConvertToBoolOrNull (.int64 0) = some 0 ∧ ConvertToBoolOrNull .null = some (-1) ∧
    LogicAnd (.int64 0) .null = some (SetValue false, none) :=
  ⟨by decide, by decide,
    (LogicAnd_three_valued (.int64 0) .null 0 (-1) (by decide) (by decide)).2.1 (Or.inl rfl)⟩

/-- C2: for operands of supported kinds with truthiness codes `x` and `y`, `LogicOr`
returns True when a code is True (whatever the other code, null included), otherwise
Null when a code is Null, otherwise False; the error component is nil. -/
theorem LogicOr_three_valued (a b : ValueExpr) (x y : Int)
    (ha : ConvertToBoolOrNull a = some x) (hb : ConvertToBoolOrNull b = some y) :
    (x = 1 ∨ y = 1 → LogicOr a b = some (SetValue true, none)) ∧
    (¬ (x = 1 ∨ y = 1) → x = -1 ∨ y = -1 → LogicOr a b = some (SetNull, none)) ∧
    (¬ (x = 1 ∨ y = 1) → ¬ (x = -1 ∨ y = -1) → LogicOr a b = some (SetValue false, none)) := by
  refine ⟨?_, ?_, ?_⟩
  · intro h
    simp [LogicOr, ha, hb, h]
  · intro h0 h1
    simp [LogicOr, ha, hb, h0, h1]
  · intro h0 h1
    simp [LogicOr, ha, hb, h0, h1]

/-- Instance of C2: a True operand wins over a Null operand. -/
theorem LogicOr_three_valued_witness :
    ConvertToBoolOrNull (.string "-3") = some 1 ∧ ConvertToBoolOrNull .null = some (-1) ∧
    LogicOr (.string "-3") .null = some (SetValue true, none) :=
  ⟨by decide, by decide,
    (LogicOr_three_valued (.string "-3") .null 1 (-1) (by decide) (by decide)).1 (Or.inl rfl)⟩

/-- C3: when the raw kind of an operand is Null, `LogicXor` returns Null without
failing, whatever the other operand (any kind, supported or not); otherwise, for
operands of supported kinds with codes `x` and `y`, it returns True exactly when the
codes differ and False exactly when they are equal. -/
theorem LogicXor_null_or_differ (a b : ValueExpr) :
    (a.Kind = .KindNull ∨ b.Kind = .KindNull → LogicXor a b = some (SetNull, none)) ∧
    (a.Kind ≠ .KindNull → b.Kind ≠ .KindNull → ∀ x y : Int,
      ConvertToBoolOrNull a = some x → ConvertToBoolOrNull b = some y →
        (LogicXor a b = some (SetValue true, none) ↔ x ≠ y) ∧
        (LogicXor a b = some (SetValue false, none) ↔ x = y) ∧
        (LogicXor a b = some (SetValue true, none) ∨
          LogicXor a b = some (SetValue false, none))) := by
  refine ⟨?_, ?_⟩
  · intro h
    simp [LogicXor, h]
  · intro ha hb x y hx hy
    by_cases hxy : x = y
    · simp [LogicXor, ha, hb, hx, hy, hxy, SetValue]
    · simp [LogicXor, ha, hb, hx, hy, hxy, SetValue]

/-- Instance of C3: Null against an unsupported datetime is Null, and a True string
against a False integer is True. -/
theorem LogicXor_null_or_differ_witness :
    LogicXor .null (.datetime 20200101) = some (SetNull, none) ∧
    LogicXor (.int64 1) .null = some (SetNull, none) ∧
    LogicXor (.string "5") (.int64 0) = some (SetValue true, none) :=
  ⟨(LogicXor_null_or_differ .null (.datetime 20200101)).1 (Or.inl rfl),
    (LogicXor_null_or_differ (.int64 1) .null).1 (Or.inr rfl),
    ((LogicXor_null_or_differ (.string "5") (.int64 0)).2 (by decide) (by decide) 1 0
      (by decide) (by decide)).1.mpr (by decide)⟩

/-- C4: the three logical operators are commutative on all operands, for the value
returned as well as for failure. -/
theorem logic_commutative (a b : ValueExpr) :
    LogicAnd a b = LogicAnd b a ∧ LogicOr a b = LogicOr b a ∧
    LogicXor a b = LogicXor b a := by
  have hmul : ∀ x y : Int, mulInt8 x y = mulInt8 y x := by
    intro x y
    simp [mulInt8, mul_comm]
  refine ⟨?_, ?_, ?_⟩
  · cases hx : ConvertToBoolOrNull a <;> cases hy : ConvertToBoolOrNull b <;>
      simp [LogicAnd, hx, hy, hmul, or_comm]
  · cases hx : ConvertToBoolOrNull a <;> cases hy : ConvertToBoolOrNull b <;>
      simp [LogicOr, hx, hy, or_comm]
  · by_cases h : a.Kind = .KindNull ∨ b.Kind = .KindNull
    · have h2 : b.Kind = .KindNull ∨ a.Kind = .KindNull := h.symm
      simp [LogicXor, h, h2]
    · have h2 : ¬ (b.Kind = .KindNull ∨ a.Kind = .KindNull) := fun k => h k.symm
      have hne : ∀ x y : Int, decide (x = y) = decide (y = x) := by
        intro x y
        by_cases hxy : x = y
        · simp [hxy]
        · have : ¬ y = x := fun k => hxy k.symm
          simp [hxy, this]
      unfold LogicXor
      rw [if_neg h, if_neg h2]
      cases hx : ConvertToBoolOrNull a <;> cases hy : ConvertToBoolOrNull b <;>
        simp [hne _ _]

/-! ## Integers and decimals -/

/-- A word buffer folded from `acc` has magnitude zero exactly when `acc` and every
word are zero. -/
theorem foldl_words_eq_zero (ws : List Nat) (acc : Nat) :
    ws.foldl (fun acc w => acc * 10 ^ 9 + w) acc = 0 ↔
      acc = 0 ∧ ws.all (fun w => w == 0) = true := by
  induction ws generalizing acc with
  | nil => simp
  | cons w ws ih =>
      simp only [List.foldl_cons, List.all_cons, Bool.and_eq_true, beq_iff_eq]
      rw [ih]
      constructor
      · rintro ⟨h, hall⟩
        have h1 : acc * 10 ^ 9 = 0 := by omega
        have h2 : w = 0 := by omega
        have h3 : acc = 0 := by
          rcases Nat.mul_eq_zero.mp h1 with h | h
          · exact h
          · exact absurd h (by norm_num)
        exact ⟨h3, h2, hall⟩
      · rintro ⟨h, hw, hall⟩
        subst h
        subst hw
        exact ⟨by simp, hall⟩

/-- Host `IsZero` holds exactly when the value of the decimal is zero. -/
theorem MyDecimal.isZero_iff (d : MyDecimal) : d.IsZero = true ↔ d.toRat = 0 := by
  have hm : MyDecimal.magnitude d.wordBuf = 0 ↔ d.IsZero = true := by
    unfold MyDecimal.magnitude MyDecimal.IsZero
    rw [foldl_words_eq_zero]
    simp
  rw [← hm]
  unfold MyDecimal.toRat
  have hpow : (10 : ℚ) ^ (9 * d.fracWords) ≠ 0 := pow_ne_zero _ (by norm_num)
  constructor
  · intro h
    simp [h]
  · intro h
    rcases div_eq_zero_iff.mp h with h | h
    · rcases mul_eq_zero.mp h with h | h
      · split at h <;> norm_num at h
      · exact_mod_cast h
    · exact absurd h hpow

/-- C6: an Int64 or Uint64 value converts to True exactly when it is not `0` and to
False exactly when it is `0`; a Decimal converts to True exactly when its value is
non-zero and to False exactly when it is zero; none of these kinds converts to
Null or fails. -/
theorem convert_integer_decimal :
    (∀ v : Int, (ConvertToBoolOrNull (.int64 v) = some 1 ↔ v ≠ 0) ∧
      (ConvertToBoolOrNull (.int64 v) = some 0 ↔ v = 0) ∧
      ConvertToBoolOrNull (.int64 v) ≠ some (-1) ∧
      ConvertToBoolOrNull (.int64 v) ≠ none) ∧
    (∀ v : Nat, (ConvertToBoolOrNull (.uint64 v) = some 1 ↔ v ≠ 0) ∧
      (ConvertToBoolOrNull (.uint64 v) = some 0 ↔ v = 0) ∧
      ConvertToBoolOrNull (.uint64 v) ≠ some (-1) ∧
      ConvertToBoolOrNull (.uint64 v) ≠ none) ∧
    (∀ d : MyDecimal, (ConvertToBoolOrNull (.decimal d) = some 1 ↔ d.toRat ≠ 0) ∧
      (ConvertToBoolOrNull (.decimal d) = some 0 ↔ d.toRat = 0) ∧
      ConvertToBoolOrNull (.decimal d) ≠ some (-1) ∧
      ConvertToBoolOrNull (.decimal d) ≠ none) := by
  refine ⟨?_, ?_, ?_⟩
  · intro v
    by_cases h : v = 0 <;> simp [ConvertToBoolOrNull, h]
  · intro v
    by_cases h : v = 0 <;> simp [ConvertToBoolOrNull, h]
  · intro d
    have hz := MyDecimal.isZero_iff d
    cases h : d.IsZero
    · have hne : ¬ d.toRat = 0 := fun k => by simp [hz.mpr k] at h
      simp [ConvertToBoolOrNull, h, hne]
    · have he : d.toRat = 0 := hz.mp h
      simp [ConvertToBoolOrNull, h, he]

/-! ## The relational operators -/

/-- Storing a boolean is injective. -/
theorem SetValue_inj (b c : Bool) : SetValue b = SetValue c ↔ b = c := by
  cases b <;> cases c <;> simp [SetValue]

/-- A stored boolean is never Null. -/
theorem SetValue_ne_null (b : Bool) : SetValue b ≠ SetNull := by
  cases b <;> simp [SetValue, SetNull]

/-- C8: when the kind of an operand is Null, each of the six relational operators
returns Null with a nil error, for every host comparison `cmp` (so also for one that
is undefined on the pair): the comparator has no part in the result and the call
does not fail. -/
theorem relational_null_propagates (cmp : ValueExpr → ValueExpr → Int × GoError)
    (a b : ValueExpr) (h : a.Kind = .KindNull ∨ b.Kind = .KindNull) :
    Eq cmp a b = some (SetNull, none) ∧ Ne cmp a b = some (SetNull, none) ∧
    Lt cmp a b = some (SetNull, none) ∧ Le cmp a b = some (SetNull, none) ∧
    Gt cmp a b = some (SetNull, none) ∧ Ge cmp a b = some (SetNull, none) := by
  simp [Eq, Ne, Lt, Le, Gt, Ge, h]

/-- Instance of C8: the host comparison is undefined on a Null against a Decimal
and on two Nulls, so `compare` itself would panic there, yet the operators return
Null. -/
theorem relational_null_propagates_witness :
    compare hostCompareDatum .null (.decimal ⟨false, 0, [7]⟩) = none ∧
    Eq hostCompareDatum .null .null = some (SetNull, none) ∧
    Lt hostCompareDatum (.decimal ⟨false, 0, [7]⟩) .null = some (SetNull, none) ∧
    Ge hostCompareDatum .null (.decimal ⟨false, 0, [7]⟩) = some (SetNull, none) :=
  ⟨by decide,
    (relational_null_propagates hostCompareDatum .null .null (Or.inl rfl)).1,
    (relational_null_propagates hostCompareDatum (.decimal ⟨false, 0, [7]⟩) .null
      (Or.inr rfl)).2.2.1,
    (relational_null_propagates hostCompareDatum .null (.decimal ⟨false, 0, [7]⟩)
      (Or.inl rfl)).2.2.2.2.2⟩

/-- C9: for operands of non-Null kinds on which `compare` returns the ordering `c`
(negative Less, zero Equal, positive Greater), each relational operator returns
True or False with a nil error, and True exactly for its orderings: `Eq` for Equal,
`Ne` for not Equal, `Lt` for Less, `Le` for Less or Equal, `Gt` for Greater, `Ge`
for Greater or Equal. For every host comparison that compares Int64 by value,
`Lt(3, 5)` and `Ge(5, 5)` are True. -/
theorem relational_maps_ordering :
    (∀ (cmp : ValueExpr → ValueExpr → Int × GoError) (a b : ValueExpr) (c : Int),
      a.Kind ≠ .KindNull → b.Kind ≠ .KindNull → compare cmp a b = some c →
        (Eq cmp a b = some (SetValue (decide (c = 0)), none) ∧
          (Eq cmp a b = some (SetValue true, none) ↔ c = 0) ∧
          (Eq cmp a b = some (SetValue false, none) ↔ ¬ c = 0)) ∧
        (Ne cmp a b = some (SetValue (decide (c ≠ 0)), none) ∧
          (Ne cmp a b = some (SetValue true, none) ↔ c ≠ 0) ∧
          (Ne cmp a b = some (SetValue false, none) ↔ ¬ c ≠ 0)) ∧
        (Lt cmp a b = some (SetValue (decide (c < 0)), none) ∧
          (Lt cmp a b = some (SetValue true, none) ↔ c < 0) ∧
          (Lt cmp a b = some (SetValue false, none) ↔ ¬ c < 0)) ∧
        (Le cmp a b = some (SetValue (decide (c ≤ 0)), none) ∧
          (Le cmp a b = some (SetValue true, none) ↔ c < 0 ∨ c = 0) ∧
          (Le cmp a b = some (SetValue false, none) ↔ ¬ (c < 0 ∨ c = 0))) ∧
        (Gt cmp a b = some (SetValue (decide (c > 0)), none) ∧
          (Gt cmp a b = some (SetValue true, none) ↔ c > 0) ∧
          (Gt cmp a b = some (SetValue false, none) ↔ ¬ c > 0)) ∧
        (Ge cmp a b = some (SetValue (decide (c ≥ 0)), none) ∧
          (Ge cmp a b = some (SetValue true, none) ↔ c > 0 ∨ c = 0) ∧
          (Ge cmp a b = some (SetValue false, none) ↔ ¬ (c > 0 ∨ c = 0)))) ∧
    (∀ cmp : ValueExpr → ValueExpr → Int × GoError,
      (∀ x y : Int, cmp (.int64 x) (.int64 y) = (CompareInt64 x y, none)) →
        Lt cmp (.int64 3) (.int64 5) = some (SetValue true, none) ∧
        Ge cmp (.int64 5) (.int64 5) = some (SetValue true, none)) := by
  refine ⟨?_, ?_⟩
  · intro cmp a b c ha hb hc
    have hle : c ≤ 0 ↔ c < 0 ∨ c = 0 := by omega
    have hge : c ≥ 0 ↔ c > 0 ∨ c = 0 := by omega
    have key : ∀ p : Prop, ∀ _ : Decidable p,
        ((some (SetValue (decide p), (none : GoError)) = some (SetValue true, none) ↔ p) ∧
          (some (SetValue (decide p), (none : GoError)) = some (SetValue false, none) ↔ ¬ p)) := by
      intro p _
      by_cases hp : p <;> simp [hp, SetValue_inj]
    have hEq : Eq cmp a b = some (SetValue (decide (c = 0)), none) := by
      simp [Eq, ha, hb, hc]
    have hNe : Ne cmp a b = some (SetValue (decide (c ≠ 0)), none) := by
      simp [Ne, ha, hb, hc]
    have hLt : Lt cmp a b = some (SetValue (decide (c < 0)), none) := by
      simp [Lt, ha, hb, hc]
    have hLe : Le cmp a b = some (SetValue (decide (c ≤ 0)), none) := by
      simp [Le, ha, hb, hc]
    have hGt : Gt cmp a b = some (SetValue (decide (c > 0)), none) := by
      simp [Gt, ha, hb, hc]
    have hGe : Ge cmp a b = some (SetValue (decide (c ≥ 0)), none) := by
      simp [Ge, ha, hb, hc]
    refine ⟨⟨hEq, ?_, ?_⟩, ⟨hNe, ?_, ?_⟩, ⟨hLt, ?_, ?_⟩, ⟨hLe, ?_, ?_⟩, ⟨hGt, ?_, ?_⟩,
      ⟨hGe, ?_, ?_⟩⟩
    · rw [hEq]; exact (key _ _).1
    · rw [hEq]; exact (key _ _).2
    · rw [hNe]; exact (key _ _).1
    · rw [hNe]; exact (key _ _).2
    · rw [hLt]; exact (key _ _).1
    · rw [hLt]; exact (key _ _).2
    · rw [hLe, ← hle]; exact (key _ _).1
    · rw [hLe, ← hle]; exact (key _ _).2
    · rw [hGt]; exact (key _ _).1
    · rw [hGt]; exact (key _ _).2
    · rw [hGe, ← hge]; exact (key _ _).1
    · rw [hGe, ← hge]; exact (key _ _).2
  · intro cmp hcmp
    constructor
    · simp [Lt, ValueExpr.Kind, compare, hcmp, CompareInt64]
    · simp [Ge, ValueExpr.Kind, compare, hcmp, CompareInt64]

/-- Instance of C9 on the host comparison: `compare(3, 5)` is Less, so `Lt` is True
and `Ge` is False; `Lt(3, 5)` and `Ge(5, 5)` are True. -/
theorem relational_maps_ordering_witness :
    (ValueExpr.int64 3).Kind ≠ .KindNull ∧ (ValueExpr.int64 5).Kind ≠ .KindNull ∧
    compare hostCompareDatum (.int64 3) (.int64 5) = some (-1) ∧
    Lt hostCompareDatum (.int64 3) (.int64 5) = some (SetValue true, none) ∧
    Ge hostCompareDatum (.int64 3) (.int64 5) = some (SetValue false, none) ∧
    Lt hostCompareDatum (.int64 3) (.int64 5) = some (SetValue true, none) ∧
    Ge hostCompareDatum (.int64 5) (.int64 5) = some (SetValue true, none) :=
  ⟨by decide, by decide, by decide,
    (relational_maps_ordering.1 hostCompareDatum (.int64 3) (.int64 5) (-1)
      (by decide) (by decide) (by decide)).2.2.1.2.1.mpr (by decide),
    (relational_maps_ordering.1 hostCompareDatum (.int64 3) (.int64 5) (-1)
      (by decide) (by decide) (by decide)).2.2.2.2.2.2.2.mpr (by decide),
    (relational_maps_ordering.2 hostCompareDatum (fun _ _ => rfl)).1,
    (relational_maps_ordering.2 hostCompareDatum (fun _ _ => rfl)).2⟩

/-- C10: for operands of non-Null kinds, `Ne` and `Eq` both go through
`compare(a, b)`: each fails exactly when `compare` fails, and when they return, they
return opposite booleans, so exactly one of them is True. -/
theorem Ne_negates_Eq (cmp : ValueExpr → ValueExpr → Int × GoError) (a b : ValueExpr)
    (ha : a.Kind ≠ .KindNull) (hb : b.Kind ≠ .KindNull) :
    (Eq cmp a b = none ↔ compare cmp a b = none) ∧
    (Ne cmp a b = none ↔ compare cmp a b = none) ∧
    (Ne cmp a b = none ↔ Eq cmp a b = none) ∧
    (∀ r s, Eq cmp a b = some r → Ne cmp a b = some s →
      ∃ t : Bool, r = (SetValue t, none) ∧ s = (SetValue (!t), none) ∧
        ((r = (SetValue true, none) ∧ s ≠ (SetValue true, none)) ∨
          (r ≠ (SetValue true, none) ∧ s = (SetValue true, none)))) := by
  cases hc : compare cmp a b with
  | none => simp [Eq, Ne, ha, hb, hc]
  | some c =>
      refine ⟨by simp [Eq, ha, hb, hc], by simp [Ne, ha, hb, hc],
        by simp [Eq, Ne, ha, hb, hc], ?_⟩
      intro r s hr hs
      have hr2 : r = (SetValue (decide (c = 0)), none) := by
        simp [Eq, ha, hb, hc] at hr
        exact hr.symm
      have hs2 : s = (SetValue (!decide (c = 0)), none) := by
        simp [Ne, ha, hb, hc] at hs
        exact hs.symm
      refine ⟨decide (c = 0), hr2, hs2, ?_⟩
      subst hr2
      subst hs2
      by_cases h0 : c = 0 <;> simp [h0, SetValue_inj]

/-- Instance of C10 on the host comparison: `Eq(5, "5")` is True and `Ne(5, "5")` is
False, while on the undefined pair of a Decimal and a String both fail. -/
theorem Ne_negates_Eq_witness :
    (ValueExpr.int64 5).Kind ≠ .KindNull ∧ (ValueExpr.string "5").Kind ≠ .KindNull ∧
    Eq hostCompareDatum (.int64 5) (.string "5") = some (SetValue true, none) ∧
    Ne hostCompareDatum (.int64 5) (.string "5") = some (SetValue false, none) ∧
    (Ne hostCompareDatum (.int64 5) (.string "5") = none ↔
      Eq hostCompareDatum (.int64 5) (.string "5") = none) :=
  ⟨by decide, by decide, by decide, by decide,
    (Ne_negates_Eq hostCompareDatum (.int64 5) (.string "5") (by decide) (by decide)).2.2.1⟩

/-! ## Floating point truthiness -/

/-- Absolute value of a finite floating point number. -/
theorem GoFloat.abs_toRat (neg : Bool) (m : Nat) (e : Int) :
    |GoFloat.toRat neg m e| = (m : ℚ) * (2 : ℚ) ^ e := by
  unfold GoFloat.toRat
  have h2 : (0 : ℚ) < (2 : ℚ) ^ e := by positivity
  have hm : (0 : ℚ) ≤ (m : ℚ) := by positivity
  cases neg <;> simp [abs_mul, abs_of_pos h2, abs_of_nonneg hm]

/-- The test `math.Abs(v) >= 1` holds exactly when the magnitude of the decoded
value is at least one. -/
theorem GoFloat.ge_abs_one_iff (v : GoFloat) :
    GoFloat.ge (GoFloat.Abs v) GoFloat.one = true ↔ GoFloat.AbsGeOne v := by
  cases v with
  | nan => simp [GoFloat.Abs, GoFloat.ge, GoFloat.AbsGeOne]
  | inf n => simp [GoFloat.Abs, GoFloat.ge, GoFloat.one, GoFloat.AbsGeOne]
  | fin neg m e =>
      simp only [GoFloat.Abs, GoFloat.one, GoFloat.ge, GoFloat.AbsGeOne, decide_eq_true_eq,
        GoFloat.abs_toRat, GoFloat.scaled]
      rcases le_or_lt 0 e with h | h
      · obtain ⟨n, rfl⟩ := Int.eq_ofNat_of_zero_le h
        rw [min_eq_right h]
        simp only [sub_zero, Int.toNat_ofNat, Int.toNat_zero, pow_zero, zpow_natCast,
          Bool.false_eq_true, if_false, mul_one]
        norm_cast
      · obtain ⟨n, rfl⟩ := Int.exists_eq_neg_ofNat h.le
        rw [min_eq_left h.le]
        have hpos : (0 : ℚ) < (2 : ℚ) ^ n := by positivity
        simp only [sub_self, Int.toNat_zero, pow_zero, mul_one, zero_sub, neg_neg,
          Int.toNat_ofNat, zpow_neg, zpow_natCast, Bool.false_eq_true, if_false, one_mul]
        rw [← div_eq_mul_inv, le_div_iff₀ hpos, one_mul]
        simp only [Nat.cast_one, one_mul]
        norm_cast

/-- C7: a Float32 or Float64 value converts to True exactly when its magnitude is
at least one (an infinity included) and to False otherwise (a not-a-number
included); so `0.5` and `-0.99` convert to False, and `1.0` and `-1.0` to True. -/
theorem convert_float_magnitude :
    (∀ v : GoFloat,
      (ConvertToBoolOrNull (.float64 v) = some 1 ↔ GoFloat.AbsGeOne v) ∧
      (ConvertToBoolOrNull (.float64 v) = some 0 ↔ ¬ GoFloat.AbsGeOne v) ∧
      (ConvertToBoolOrNull (.float32 v) = some 1 ↔ GoFloat.AbsGeOne v) ∧
      (ConvertToBoolOrNull (.float32 v) = some 0 ↔ ¬ GoFloat.AbsGeOne v)) ∧
    (∀ (neg : Bool) (m : Nat) (e : Int), |GoFloat.toRat neg m e| < 1 →
      ConvertToBoolOrNull (.float64 (.fin neg m e)) = some 0 ∧
      ConvertToBoolOrNull (.float32 (.fin neg m e)) = some 0) ∧
    ConvertToBoolOrNull (.float64 (.fin false 1 (-1))) = some 0 ∧
    ConvertToBoolOrNull (.float64 (.fin true 8917127262193582 (-53))) = some 0 ∧
    ConvertToBoolOrNull (.float64 (.fin false 1 0)) = some 1 ∧
    ConvertToBoolOrNull (.float64 (.fin true 1 0)) = some 1 := by
  have key : ∀ v : GoFloat,
      (ConvertToBoolOrNull (.float64 v) = some 1 ↔ GoFloat.AbsGeOne v) ∧
      (ConvertToBoolOrNull (.float64 v) = some 0 ↔ ¬ GoFloat.AbsGeOne v) ∧
      (ConvertToBoolOrNull (.float32 v) = some 1 ↔ GoFloat.AbsGeOne v) ∧
      (ConvertToBoolOrNull (.float32 v) = some 0 ↔ ¬ GoFloat.AbsGeOne v) := by
    intro v
    have h := GoFloat.ge_abs_one_iff v
    by_cases hv : GoFloat.AbsGeOne v
    · simp [ConvertToBoolOrNull, h.mpr hv, hv]
    · have hf : GoFloat.ge (GoFloat.Abs v) GoFloat.one = false := by
        cases hg : GoFloat.ge (GoFloat.Abs v) GoFloat.one
        · rfl
        · exact absurd (h.mp hg) hv
      simp [ConvertToBoolOrNull, hf, hv]
  refine ⟨key, ?_, by decide, by decide, by decide, by decide⟩
  intro neg m e hlt
  have hn : ¬ GoFloat.AbsGeOne (.fin neg m e) := by
    simp only [GoFloat.AbsGeOne]
    exact not_le.mpr hlt
  exact ⟨(key _).2.1.mpr hn, (key _).2.2.2.mpr hn⟩

/-! ## String truthiness -/

/-- The class `[1-9]` matches at a cursor exactly when the text there starts with a
non-zero digit. -/
theorem matchAt_cls_ne_nil (p : Nat) (t : List Char) :
    matchAt (.cls '1' '9') (p, t) ≠ [] ↔
      ∃ (d : Char) (rest : List Char), ('1' ≤ d ∧ d ≤ '9') ∧ t = d :: rest := by
  cases t with
  | nil => simp [matchAt]
  | cons x xs =>
      by_cases hx : '1' ≤ x ∧ x ≤ '9'
      · simp [matchAt, hx]
      · simp only [matchAt, if_neg hx, ne_eq, not_true_eq_false, false_iff]
        rintro ⟨d, rest, hd, heq⟩
        simp only [List.cons.injEq] at heq
        exact hx (heq.1 ▸ hd)

/-- One or more iterations of `[1-9]` match exactly when a single one does. -/
theorem matchAt_plus_cls_ne_nil (p : Nat) (t : List Char) :
    matchAt (.plus (.cls '1' '9')) (p, t) ≠ [] ↔
      ∃ (d : Char) (rest : List Char), ('1' ≤ d ∧ d ≤ '9') ∧ t = d :: rest := by
  rw [← matchAt_cls_ne_nil p t]
  simp only [matchAt, plusIter, ne_eq, List.flatMap_eq_nil_iff, not_forall]
  constructor
  · rintro ⟨d, hd, _⟩
    exact fun h => by simp [h] at hd
  · intro h
    obtain ⟨d, hd⟩ := List.exists_mem_of_ne_nil _ h
    exact ⟨d, hd, by simp⟩

/-- Splitting the run of zeros: either the digit comes first, or a `0` does. -/
theorem zerosThenDigit_iff (t : List Char) :
    ZerosThenDigit t ↔
      (∃ (d : Char) (rest : List Char), ('1' ≤ d ∧ d ≤ '9') ∧ t = d :: rest) ∨
      (∃ xs, t = '0' :: xs ∧ ZerosThenDigit xs) := by
  constructor
  · rintro ⟨k, d, rest, hd, rfl⟩
    cases k with
    | zero => exact Or.inl ⟨d, rest, hd, by simp⟩
    | succ k =>
        exact Or.inr ⟨List.replicate k '0' ++ d :: rest, by simp [List.replicate_succ],
          k, d, rest, hd, rfl⟩
  · rintro (⟨d, rest, hd, rfl⟩ | ⟨xs, rfl, k, d, rest, hd, rfl⟩)
    · exact ⟨0, d, rest, hd, by simp⟩
    · exact ⟨k + 1, d, rest, hd, by simp [List.replicate_succ]⟩

/-- With enough fuel, `0+` followed by `[1-9]` matches at a cursor exactly when the
text there is a `0` followed by a run of zeros and a non-zero digit. -/
theorem zeros_iter_then_cls (t : List Char) : ∀ (p fuel : Nat), t.length + 1 ≤ fuel →
    ((∃ d ∈ plusIter (fun d => matchAt (.lit '0') d) fuel (p, t),
        matchAt (.cls '1' '9') d ≠ []) ↔
      ∃ xs, t = '0' :: xs ∧ ZerosThenDigit xs) := by
  induction t with
  | nil =>
      intro p fuel h
      cases fuel with
      | zero => omega
      | succ n => simp [plusIter, matchAt]
  | cons x xs ih =>
      intro p fuel h
      cases fuel with
      | zero => omega
      | succ n =>
          have hn : xs.length + 1 ≤ n := by
            simp only [List.length_cons] at h
            omega
          by_cases hx : x = '0'
          · subst hx
            have hstep : plusIter (fun d => matchAt (.lit '0') d) (n + 1) (p, '0' :: xs) =
                (p + 1, xs) :: plusIter (fun d => matchAt (.lit '0') d) n (p + 1, xs) := by
              simp [plusIter, matchAt]
            rw [hstep]
            simp only [List.mem_cons, exists_eq_or_imp]
            rw [ih (p + 1) n hn, matchAt_cls_ne_nil, ← zerosThenDigit_iff xs]
            simp
          · have hstep : plusIter (fun d => matchAt (.lit '0') d) (n + 1) (p, x :: xs) = [] := by
              simp [plusIter, matchAt, hx]
            rw [hstep]
            simp [hx]

/-- Cursors reached by `^` followed by an optional minus sign: only from the start
of the text, either in place or past a leading `-`. -/
theorem mem_matchAt_head (p : Nat) (s : List Char) (d : Cursor) :
    d ∈ matchAt (.cat .beginText (.rep01 (.lit '-'))) (p, s) ↔
      p = 0 ∧ (d = (0, s) ∨ ∃ xs, s = '-' :: xs ∧ d = (1, xs)) := by
  by_cases hp : p = 0
  · subst hp
    cases s with
    | nil => simp [matchAt]
    | cons x xs =>
        by_cases hx : x = '-'
        · subst hx
          simp [matchAt, or_comm]
        · simp [matchAt, hx]
  · simp [matchAt, hp]

/-- The reading in words, split on the sign. -/
theorem leadingNonZeroDigit_iff (s : List Char) :
    LeadingNonZeroDigit s ↔ ZerosThenDigit s ∨ ∃ xs, s = '-' :: xs ∧ ZerosThenDigit xs := by
  constructor
  · rintro ⟨sign, t, hsign | hsign, ht, rfl⟩
    · subst hsign
      exact Or.inl (by simpa using ht)
    · subst hsign
      exact Or.inr ⟨t, by simp, ht⟩
  · rintro (h | ⟨xs, rfl, h⟩)
    · exact ⟨[], s, Or.inl rfl, h, by simp⟩
    · exact ⟨['-'], xs, Or.inr rfl, h, by simp⟩

/-- The pattern matches at a cursor exactly when the cursor is the start of the text
and the text reads as an optional minus, zeros, and a non-zero digit. -/
theorem matchAt_truthyPattern_ne_nil (p : Nat) (s : List Char) :
    matchAt truthyPattern (p, s) ≠ [] ↔ p = 0 ∧ LeadingNonZeroDigit s := by
  have h1 : matchAt (.cat (.cat .beginText (.rep01 (.lit '-'))) (.plus (.cls '1' '9'))) (p, s)
      ≠ [] ↔ ∃ d ∈ matchAt (.cat .beginText (.rep01 (.lit '-'))) (p, s),
        ∃ (c : Char) (rest : List Char), ('1' ≤ c ∧ c ≤ '9') ∧ d.2 = c :: rest := by
    rw [matchAt, ne_eq, List.flatMap_eq_nil_iff, not_forall]
    constructor
    · rintro ⟨d, hd⟩
      rw [Classical.not_imp] at hd
      exact ⟨d, hd.1, (matchAt_plus_cls_ne_nil d.1 d.2).mp hd.2⟩
    · rintro ⟨d, hd, hm⟩
      exact ⟨d, fun k => (matchAt_plus_cls_ne_nil d.1 d.2).mpr hm (k hd)⟩
  have h2 : matchAt (.cat (.cat (.cat .beginText (.rep01 (.lit '-'))) (.plus (.lit '0')))
      (.cls '1' '9')) (p, s) ≠ [] ↔
      ∃ d ∈ matchAt (.cat .beginText (.rep01 (.lit '-'))) (p, s),
        ∃ xs, d.2 = '0' :: xs ∧ ZerosThenDigit xs := by
    rw [matchAt, ne_eq, List.flatMap_eq_nil_iff, not_forall]
    constructor
    · rintro ⟨e, he⟩
      rw [Classical.not_imp] at he
      obtain ⟨he1, he2⟩ := he
      rw [matchAt, List.mem_flatMap] at he1
      obtain ⟨d, hd, hed⟩ := he1
      refine ⟨d, hd, (zeros_iter_then_cls d.2 d.1 (d.2.length + 1) le_rfl).mp ⟨e, ?_, he2⟩⟩
      simpa [matchAt] using hed
    · rintro ⟨d, hd, hz⟩
      obtain ⟨e, he, hne⟩ := (zeros_iter_then_cls d.2 d.1 (d.2.length + 1) le_rfl).mpr hz
      refine ⟨e, fun k => hne (k ?_)⟩
      rw [matchAt, List.mem_flatMap]
      exact ⟨d, hd, by simpa [matchAt] using he⟩
  have hsplit : matchAt truthyPattern (p, s) ≠ [] ↔
      matchAt (.cat (.cat .beginText (.rep01 (.lit '-'))) (.plus (.cls '1' '9'))) (p, s) ≠ [] ∨
      matchAt (.cat (.cat (.cat .beginText (.rep01 (.lit '-'))) (.plus (.lit '0')))
        (.cls '1' '9')) (p, s) ≠ [] := by
    have halt : ∀ (r t : Regexp) (c : Cursor),
        matchAt (.alt r t) c = matchAt r c ++ matchAt t c := fun r t c => by rw [matchAt]
    rw [truthyPattern, halt, ne_eq, List.append_eq_nil, not_and_or]
  rw [hsplit, h1, h2, leadingNonZeroDigit_iff, zerosThenDigit_iff s]
  constructor
  · rintro (⟨d, hd, c, rest, hc, hrest⟩ | ⟨d, hd, xs, hxs, hz⟩)
    · obtain ⟨hp, rfl | ⟨ys, rfl, rfl⟩⟩ := (mem_matchAt_head p s d).mp hd
      · exact ⟨hp, Or.inl (Or.inl ⟨c, rest, hc, hrest⟩)⟩
      · exact ⟨hp, Or.inr ⟨ys, rfl, (zerosThenDigit_iff ys).mpr (Or.inl ⟨c, rest, hc, hrest⟩)⟩⟩
    · obtain ⟨hp, rfl | ⟨ys, rfl, rfl⟩⟩ := (mem_matchAt_head p s d).mp hd
      · exact ⟨hp, Or.inl (Or.inr ⟨xs, hxs, hz⟩)⟩
      · exact ⟨hp, Or.inr ⟨ys, rfl, (zerosThenDigit_iff ys).mpr (Or.inr ⟨xs, hxs, hz⟩)⟩⟩
  · rintro ⟨hp, (⟨c, rest, hc, hrest⟩ | ⟨xs, hxs, hz⟩) | ⟨ys, hys, hz⟩⟩
    · exact Or.inl ⟨(0, s), (mem_matchAt_head p s _).mpr ⟨hp, Or.inl rfl⟩, c, rest, hc, hrest⟩
    · exact Or.inr ⟨(0, s), (mem_matchAt_head p s _).mpr ⟨hp, Or.inl rfl⟩, xs, hxs, hz⟩
    · rcases (zerosThenDigit_iff ys).mp hz with ⟨c, rest, hc, hrest⟩ | ⟨xs, hxs, hz2⟩
      · exact Or.inl ⟨(1, ys), (mem_matchAt_head p s _).mpr ⟨hp, Or.inr ⟨ys, hys, rfl⟩⟩,
          c, rest, hc, hrest⟩
      · exact Or.inr ⟨(1, ys), (mem_matchAt_head p s _).mpr ⟨hp, Or.inr ⟨ys, hys, rfl⟩⟩,
          xs, hxs, hz2⟩

/-- No match of the pattern starts after the first position. -/
theorem searchFrom_truthyPattern_succ (s : List Char) : ∀ p : Nat,
    searchFrom truthyPattern (p + 1) s = false := by
  have hnil : ∀ (q : Nat) (t : List Char), matchAt truthyPattern (q + 1, t) = [] := by
    intro q t
    by_contra h
    exact absurd ((matchAt_truthyPattern_ne_nil (q + 1) t).mp h).1 (by omega)
  induction s with
  | nil => intro p; simp [searchFrom, hnil]
  | cons x xs ih => intro p; simp [searchFrom, hnil, ih]

/-- The search for the pattern succeeds exactly on the texts that read as an optional
minus, zeros, and a non-zero digit. -/
theorem matchString_truthyPattern_iff (s : String) :
    MatchString truthyPattern s = true ↔ LeadingNonZeroDigit s.toList := by
  have hne : ∀ t : List Char, (!(matchAt truthyPattern (0, t)).isEmpty) = true ↔
      LeadingNonZeroDigit t := by
    intro t
    have h := matchAt_truthyPattern_ne_nil 0 t
    simp only [true_and] at h
    rw [← h]
    cases matchAt truthyPattern (0, t) <;> simp
  unfold MatchString
  cases hs : s.toList with
  | nil => simpa [searchFrom] using hne []
  | cons x xs =>
      simp only [searchFrom, zero_add, searchFrom_truthyPattern_succ, Bool.or_false]
      exact hne (x :: xs)

/-- C5: a String converts to True exactly when it begins with an optional single
minus sign, then a run of zero or more `0` characters, then a non-zero digit
`1`..`9` (what follows is ignored), and to False otherwise; so `"5"`, `"-3"` and
`"1e5"` are True while `"0"`, `"abc"` and `"0.5"` are False. -/
theorem convert_string_pattern :
    (∀ s : String,
      (ConvertToBoolOrNull (.string s) = some 1 ↔ LeadingNonZeroDigit s.toList) ∧
      (ConvertToBoolOrNull (.string s) = some 0 ↔ ¬ LeadingNonZeroDigit s.toList)) ∧
    ConvertToBoolOrNull (.string "5") = some 1 ∧
    ConvertToBoolOrNull (.string "0") = some 0 ∧
    ConvertToBoolOrNull (.string "-3") = some 1 ∧
    ConvertToBoolOrNull (.string "abc") = some 0 ∧
    ConvertToBoolOrNull (.string "1e5") = some 1 ∧
    ConvertToBoolOrNull (.string "0.5") = some 0 := by
  refine ⟨?_, by decide, by decide, by decide, by decide, by decide, by decide⟩
  intro s
  have h := matchString_truthyPattern_iff s
  by_cases hs : LeadingNonZeroDigit s.toList
  · simpa [ConvertToBoolOrNull, h.mpr hs] using hs
  · have hf : MatchString truthyPattern s = false := by
      cases hm : MatchString truthyPattern s
      · rfl
      · exact absurd (h.mp hm) hs
    simpa [ConvertToBoolOrNull, hf] using hs

/-- Instance of C7: the value `0.5` has magnitude below one and converts to False
at both widths. -/
theorem convert_float_magnitude_witness :
    |GoFloat.toRat false 1 (-1)| < 1 ∧
    ConvertToBoolOrNull (.float64 (.fin false 1 (-1))) = some 0 ∧
    ConvertToBoolOrNull (.float32 (.fin false 1 (-1))) = some 0 :=
  have h : |GoFloat.toRat false 1 (-1)| < 1 := by
    rw [GoFloat.abs_toRat]
    norm_num
  ⟨h, convert_float_magnitude.2.1 false 1 (-1) h⟩

/-! ## The comparator -/

/-- When the direct comparison succeeds, `compare` returns its result. -/
theorem compare_of_ok (cmp : ValueExpr → ValueExpr → Int × GoError) (a b : ValueExpr)
    (h : (cmp a b).2 = none) : compare cmp a b = some (cmp a b).1 := by
  simp [compare, h]

/-- On an undefined pair of a numeric value and a string, `compare` is the
comparison of the numeric value with zero, or a panic when that one fails too. -/
theorem compare_numeric_string (cmp : ValueExpr → ValueExpr → Int × GoError)
    (a b : ValueExpr) (h : (cmp a b).2 ≠ none) (ha : a.Kind.isNumeric = true)
    (hb : b.Kind = .KindString) :
    compare cmp a b =
      if (cmp a (.int64 0)).2 = none then some (cmp a (.int64 0)).1 else none := by
  cases a <;> cases b <;> simp [ValueExpr.Kind, Kind.isNumeric] at ha hb <;>
    simp [compare, h, ValueExpr.Kind]

/-- On an undefined pair of a string and a numeric value, `compare` is the negated
comparison of the numeric value with zero, or a panic when that one fails too. -/
theorem compare_string_numeric (cmp : ValueExpr → ValueExpr → Int × GoError)
    (a b : ValueExpr) (h : (cmp a b).2 ≠ none) (ha : a.Kind = .KindString)
    (hb : b.Kind.isNumeric = true) :
    compare cmp a b =
      if (cmp b (.int64 0)).2 = none then some (negInt (cmp b (.int64 0)).1) else none := by
  cases a <;> cases b <;> simp [ValueExpr.Kind, Kind.isNumeric] at ha hb <;>
    simp [compare, h, ValueExpr.Kind]

/-- On an undefined pair that is neither numeric-string nor string-numeric,
`compare` panics. -/
theorem compare_no_fallback (cmp : ValueExpr → ValueExpr → Int × GoError)
    (a b : ValueExpr) (h : (cmp a b).2 ≠ none)
    (h1 : ¬ (a.Kind.isNumeric = true ∧ b.Kind = .KindString))
    (h2 : ¬ (a.Kind = .KindString ∧ b.Kind.isNumeric = true)) :
    compare cmp a b = none := by
  cases a <;> cases b <;> simp [ValueExpr.Kind, Kind.isNumeric] at h1 h2 <;>
    simp [compare, h, ValueExpr.Kind]

/-- Go negation is the mathematical one away from the least `int`. -/
theorem negInt_eq_neg (i : Int) (h1 : -(2 : Int) ^ 63 < i) (h2 : i < 2 ^ 63) :
    negInt i = -i := by
  unfold negInt
  have e : (2 : Int) ^ 64 = 2 ^ 63 + 2 ^ 63 := by norm_num
  have hlo : 0 ≤ -i + 2 ^ 63 := by omega
  have hhi : -i + 2 ^ 63 < 2 ^ 64 := by omega
  rw [Int.emod_eq_of_lt hlo hhi]
  omega

/-- C11: when the direct comparison of `a` and `b` is undefined and the comparison
of the numeric side with the integer zero yields a result, `compare(a, b)` returns
that result for a numeric `a` (Int64, Uint64, Float32, Float64) and a String `b`,
and its Go negation for a String `a` and a numeric `b`. For every host comparison
that is undefined on `5` against `"abc"` in both orders and compares Int64 by
value, `compare(5, "abc")` is Greater and `compare("abc", 5)` is Less. -/
theorem compare_fallback_zero :
    (∀ (cmp : ValueExpr → ValueExpr → Int × GoError) (a b : ValueExpr),
      (cmp a b).2 ≠ none → a.Kind.isNumeric = true → b.Kind = .KindString →
      (cmp a (.int64 0)).2 = none →
        compare cmp a b = some (cmp a (.int64 0)).1) ∧
    (∀ (cmp : ValueExpr → ValueExpr → Int × GoError) (a b : ValueExpr),
      (cmp a b).2 ≠ none → a.Kind = .KindString → b.Kind.isNumeric = true →
      (cmp b (.int64 0)).2 = none →
        compare cmp a b = some (negInt (cmp b (.int64 0)).1) ∧
        (-(2 : Int) ^ 63 < (cmp b (.int64 0)).1 → (cmp b (.int64 0)).1 < 2 ^ 63 →
          compare cmp a b = some (-(cmp b (.int64 0)).1))) ∧
    (∀ cmp : ValueExpr → ValueExpr → Int × GoError,
      (∀ x y : Int, cmp (.int64 x) (.int64 y) = (CompareInt64 x y, none)) →
      (cmp (.int64 5) (.string "abc")).2 ≠ none →
      (cmp (.string "abc") (.int64 5)).2 ≠ none →
        compare cmp (.int64 5) (.string "abc") = some 1 ∧
        compare cmp (.string "abc") (.int64 5) = some (-1)) := by
  refine ⟨?_, ?_, ?_⟩
  · intro cmp a b h ha hb hz
    rw [compare_numeric_string cmp a b h ha hb, if_pos hz]
  · intro cmp a b h ha hb hz
    have hc : compare cmp a b = some (negInt (cmp b (.int64 0)).1) := by
      rw [compare_string_numeric cmp a b h ha hb, if_pos hz]
    refine ⟨hc, fun h1 h2 => ?_⟩
    rw [hc, negInt_eq_neg _ h1 h2]
  · intro cmp hint h1 h2
    constructor
    · rw [compare_numeric_string cmp _ _ h1 rfl rfl]
      simp [hint, CompareInt64]
    · rw [compare_string_numeric cmp _ _ h2 rfl rfl]
      simp [hint, CompareInt64, negInt]

/-- Instance of C11 on the host comparison: `5` against `"abc"` is undefined, `5`
against zero is Greater, so the fallback gives Greater, and Less in the other
order; the Uint64 `0` against `"x"` falls back to Equal. -/
theorem compare_fallback_zero_witness :
    (hostCompareDatum (.int64 5) (.string "abc")).2 ≠ none ∧
    (hostCompareDatum (.string "abc") (.int64 5)).2 ≠ none ∧
    compare hostCompareDatum (.int64 5) (.string "abc") = some 1 ∧
    compare hostCompareDatum (.string "abc") (.int64 5) = some (-1) ∧
    compare hostCompareDatum (.uint64 0) (.string "x") =
      some (hostCompareDatum (.uint64 0) (.int64 0)).1 :=
  ⟨by decide, by decide,
    (compare_fallback_zero.2.2 hostCompareDatum (fun _ _ => rfl) (by decide) (by decide)).1,
    (compare_fallback_zero.2.2 hostCompareDatum (fun _ _ => rfl) (by decide) (by decide)).2,
    compare_fallback_zero.1 hostCompareDatum (.uint64 0) (.string "x") (by decide) rfl rfl
      (by decide)⟩

/-- C12: for every pair, `compare` either returns the result of a successful direct
comparison, or on an undefined pair returns the result of a successful
numeric-versus-string fallback, or panics; and its outcome does not depend on the
result value that an undefined direct comparison carries beside its error, so that
value is never returned. -/
theorem compare_never_silent (cmp : ValueExpr → ValueExpr → Int × GoError)
    (a b : ValueExpr) :
    (((cmp a b).2 = none ∧ compare cmp a b = some (cmp a b).1) ∨
      ((cmp a b).2 ≠ none ∧ a.Kind.isNumeric = true ∧ b.Kind = .KindString ∧
        (cmp a (.int64 0)).2 = none ∧ compare cmp a b = some (cmp a (.int64 0)).1) ∨
      ((cmp a b).2 ≠ none ∧ a.Kind = .KindString ∧ b.Kind.isNumeric = true ∧
        (cmp b (.int64 0)).2 = none ∧
        compare cmp a b = some (negInt (cmp b (.int64 0)).1)) ∨
      ((cmp a b).2 ≠ none ∧ compare cmp a b = none)) ∧
    (∀ other : ValueExpr → ValueExpr → Int × GoError,
      (∀ x y, (other x y).2 = (cmp x y).2) →
      (∀ x y, (cmp x y).2 = none → (other x y).1 = (cmp x y).1) →
        compare other a b = compare cmp a b) := by
  constructor
  · by_cases h : (cmp a b).2 = none
    · exact Or.inl ⟨h, compare_of_ok cmp a b h⟩
    · by_cases h1 : a.Kind.isNumeric = true ∧ b.Kind = .KindString
      · have hc := compare_numeric_string cmp a b h h1.1 h1.2
        by_cases hz : (cmp a (.int64 0)).2 = none
        · rw [if_pos hz] at hc
          exact Or.inr (Or.inl ⟨h, h1.1, h1.2, hz, hc⟩)
        · rw [if_neg hz] at hc
          exact Or.inr (Or.inr (Or.inr ⟨h, hc⟩))
      · by_cases h2 : a.Kind = .KindString ∧ b.Kind.isNumeric = true
        · have hc := compare_string_numeric cmp a b h h2.1 h2.2
          by_cases hz : (cmp b (.int64 0)).2 = none
          · rw [if_pos hz] at hc
            exact Or.inr (Or.inr (Or.inl ⟨h, h2.1, h2.2, hz, hc⟩))
          · rw [if_neg hz] at hc
            exact Or.inr (Or.inr (Or.inr ⟨h, hc⟩))
        · exact Or.inr (Or.inr (Or.inr ⟨h, compare_no_fallback cmp a b h h1 h2⟩))
  · intro other herr hres
    by_cases h : (cmp a b).2 = none
    · have ho : (other a b).2 = none := by rw [herr, h]
      rw [compare_of_ok cmp a b h, compare_of_ok other a b ho, hres a b h]
    · have ho : (other a b).2 ≠ none := by rw [herr]; exact h
      by_cases h1 : a.Kind.isNumeric = true ∧ b.Kind = .KindString
      · rw [compare_numeric_string cmp a b h h1.1 h1.2,
          compare_numeric_string other a b ho h1.1 h1.2, herr]
        by_cases hz : (cmp a (.int64 0)).2 = none
        · rw [if_pos hz, if_pos hz, hres _ _ hz]
        · rw [if_neg hz, if_neg hz]
      · by_cases h2 : a.Kind = .KindString ∧ b.Kind.isNumeric = true
        · rw [compare_string_numeric cmp a b h h2.1 h2.2,
            compare_string_numeric other a b ho h2.1 h2.2, herr]
          by_cases hz : (cmp b (.int64 0)).2 = none
          · rw [if_pos hz, if_pos hz, hres _ _ hz]
          · rw [if_neg hz, if_neg hz]
        · rw [compare_no_fallback cmp a b h h1 h2, compare_no_fallback other a b ho h1 h2]

/-- The carrying host has the errors of the host comparison. -/
theorem hostCompareDatumCarrying_err (x y : ValueExpr) :
    (hostCompareDatumCarrying x y).2 = (hostCompareDatum x y).2 := by
  unfold hostCompareDatumCarrying
  split <;> rfl

/-- The carrying host has the results of the host comparison where it is defined. -/
theorem hostCompareDatumCarrying_res (x y : ValueExpr)
    (h : (hostCompareDatum x y).2 = none) :
    (hostCompareDatumCarrying x y).1 = (hostCompareDatum x y).1 := by
  unfold hostCompareDatumCarrying
  rw [if_pos h]

/-- Instance of C12: a host that carries `7` beside the error on `5` against `"abc"`
still yields the fallback result Greater, the same as the host that carries `0`. -/
theorem compare_never_silent_witness :
    (∀ x y, (hostCompareDatumCarrying x y).2 = (hostCompareDatum x y).2) ∧
    (∀ x y, (hostCompareDatum x y).2 = none →
      (hostCompareDatumCarrying x y).1 = (hostCompareDatum x y).1) ∧
    hostCompareDatumCarrying (.int64 5) (.string "abc") = (7, some "undefined comparison") ∧
    compare hostCompareDatum (.int64 5) (.string "abc") = some 1 ∧
    compare hostCompareDatumCarrying (.int64 5) (.string "abc") =
      compare hostCompareDatum (.int64 5) (.string "abc") :=
  ⟨hostCompareDatumCarrying_err, hostCompareDatumCarrying_res, by decide, by decide,
    (compare_never_silent hostCompareDatum (.int64 5) (.string "abc")).2
      hostCompareDatumCarrying hostCompareDatumCarrying_err hostCompareDatumCarrying_res⟩

/-- C13: `compare(a, b)` panics exactly when the direct comparison is undefined and
the pair is neither a numeric value against a String nor a String against a numeric
value with a successful comparison of the numeric side with zero; so an undefined
Decimal-versus-String or Datetime-versus-String pair panics. -/
theorem compare_fatal_iff :
    (∀ (cmp : ValueExpr → ValueExpr → Int × GoError) (a b : ValueExpr),
      compare cmp a b = none ↔
        (cmp a b).2 ≠ none ∧
        ¬ (a.Kind.isNumeric = true ∧ b.Kind = .KindString ∧ (cmp a (.int64 0)).2 = none) ∧
        ¬ (a.Kind = .KindString ∧ b.Kind.isNumeric = true ∧
            (cmp b (.int64 0)).2 = none)) ∧
    (∀ (cmp : ValueExpr → ValueExpr → Int × GoError) (d : MyDecimal) (t : Nat) (s : String),
      ((cmp (.decimal d) (.string s)).2 ≠ none → compare cmp (.decimal d) (.string s) = none) ∧
      ((cmp (.datetime t) (.string s)).2 ≠ none →
        compare cmp (.datetime t) (.string s) = none)) := by
  constructor
  · intro cmp a b
    by_cases h : (cmp a b).2 = none
    · simp [compare_of_ok cmp a b h, h]
    · by_cases h1 : a.Kind.isNumeric = true ∧ b.Kind = .KindString
      · have hns : ¬ (a.Kind = .KindString ∧ b.Kind.isNumeric = true) := by
          rintro ⟨hs, _⟩
          rw [hs] at h1
          exact absurd h1.1 (by decide)
        rw [compare_numeric_string cmp a b h h1.1 h1.2]
        by_cases hz : (cmp a (.int64 0)).2 = none
        · simp [hz, h1.1, h1.2]
        · simp only [if_neg hz, true_iff]
          exact ⟨h, fun k => hz k.2.2, fun k => hns ⟨k.1, k.2.1⟩⟩
      · by_cases h2 : a.Kind = .KindString ∧ b.Kind.isNumeric = true
        · rw [compare_string_numeric cmp a b h h2.1 h2.2]
          by_cases hz : (cmp b (.int64 0)).2 = none
          · simp [hz, h2.1, h2.2]
          · have h1n : ¬ (a.Kind.isNumeric = true ∧ b.Kind = .KindString ∧
                (cmp a (.int64 0)).2 = none) := fun k => h1 ⟨k.1, k.2.1⟩
            simp only [if_neg hz, true_iff]
            exact ⟨h, h1n, fun k => hz k.2.2⟩
        · rw [compare_no_fallback cmp a b h h1 h2]
          simp only [true_iff]
          exact ⟨h, fun k => h1 ⟨k.1, k.2.1⟩, fun k => h2 ⟨k.1, k.2.1⟩⟩
  · intro cmp d t s
    constructor
    · intro h
      exact compare_no_fallback cmp _ _ h (by simp [ValueExpr.Kind, Kind.isNumeric])
        (by simp [ValueExpr.Kind])
    · intro h
      exact compare_no_fallback cmp _ _ h (by simp [ValueExpr.Kind, Kind.isNumeric])
        (by simp [ValueExpr.Kind])

/-- Instance of C13 on the host comparison: a Decimal against `"abc"` and a
datetime against `"abc"` are undefined and panic, while `5` against `"abc"` is
undefined and does not. -/
theorem compare_fatal_iff_witness :
    (hostCompareDatum (.decimal ⟨false, 0, [1]⟩) (.string "abc")).2 ≠ none ∧
    compare hostCompareDatum (.decimal ⟨false, 0, [1]⟩) (.string "abc") = none ∧
    (hostCompareDatum (.datetime 20200101) (.string "abc")).2 ≠ none ∧
    compare hostCompareDatum (.datetime 20200101) (.string "abc") = none ∧
    compare hostCompareDatum (.int64 5) (.string "abc") ≠ none :=
  ⟨by decide,
    (compare_fatal_iff.2 hostCompareDatum ⟨false, 0, [1]⟩ 0 "abc").1 (by decide),
    by decide,
    (compare_fatal_iff.2 hostCompareDatum ⟨false, 0, [1]⟩ 20200101 "abc").2 (by decide),
    fun k => ((compare_fatal_iff.1 hostCompareDatum (.int64 5) (.string "abc")).mp k).2.1
      ⟨rfl, rfl, by decide⟩⟩

/-! ## Failure and result kinds -/

/-- The converter panics exactly on the kinds without a `case`. -/
theorem convert_none_iff (a : ValueExpr) :
    ConvertToBoolOrNull a = none ↔ a.Kind.isSupported = false := by
  cases a <;> simp only [ConvertToBoolOrNull, ValueExpr.Kind, Kind.isSupported] <;> first
    | (split <;> simp)
    | simp

/-- The result of `LogicAnd` on two truthiness codes. -/
theorem LogicAnd_of_codes (a b : ValueExpr) (x y : Int)
    (ha : ConvertToBoolOrNull a = some x) (hb : ConvertToBoolOrNull b = some y) :
    LogicAnd a b = some (if mulInt8 x y = 0 then SetValue false
      else if x = -1 ∨ y = -1 then SetNull else SetValue true, none) := by
  simp only [LogicAnd, ha, hb, Option.bind_eq_bind, Option.some_bind]
  split
  · rfl
  · split <;> rfl

/-- The result of `LogicOr` on two truthiness codes. -/
theorem LogicOr_of_codes (a b : ValueExpr) (x y : Int)
    (ha : ConvertToBoolOrNull a = some x) (hb : ConvertToBoolOrNull b = some y) :
    LogicOr a b = some (if x = 1 ∨ y = 1 then SetValue true
      else if x = -1 ∨ y = -1 then SetNull else SetValue false, none) := by
  simp only [LogicOr, ha, hb, Option.bind_eq_bind, Option.some_bind]
  split
  · rfl
  · split <;> rfl

/-- The result of `LogicXor` on two truthiness codes. -/
theorem LogicXor_of_codes (a b : ValueExpr) (x y : Int)
    (ha : ConvertToBoolOrNull a = some x) (hb : ConvertToBoolOrNull b = some y) :
    LogicXor a b = some (if x = -1 ∨ y = -1 then SetNull
      else SetValue (decide (x ≠ y)), none) := by
  have hka := convert_null_iff a
  have hkb := convert_null_iff b
  rw [ha] at hka
  rw [hb] at hkb
  simp only [Option.some.injEq] at hka hkb
  simp only [LogicXor, ha, hb, Option.bind_eq_bind, Option.some_bind, ← hka, ← hkb]
  split <;> rfl

/-- C14: `ConvertToBoolOrNull(a)` panics exactly when the kind of `a` is outside
Null, Int64, Uint64, Float32, Float64, String, Decimal (so a Datetime panics); it
returns Null exactly for the Null kind and False or True for every other supported
kind. `LogicAnd` and `LogicOr` panic exactly when an operand has an unsupported
kind, even beside a False operand of `LogicAnd` or a True operand of `LogicOr`. -/
theorem convert_fails_iff_unsupported :
    (∀ a : ValueExpr, ConvertToBoolOrNull a = none ↔ a.Kind.isSupported = false) ∧
    (∀ t : Nat, ConvertToBoolOrNull (.datetime t) = none) ∧
    (∀ a : ValueExpr, ConvertToBoolOrNull a = some (-1) ↔ a.Kind = .KindNull) ∧
    (∀ a : ValueExpr, a.Kind.isSupported = true → a.Kind ≠ .KindNull →
      ConvertToBoolOrNull a = some 0 ∨ ConvertToBoolOrNull a = some 1) ∧
    (∀ a b : ValueExpr, LogicAnd a b = none ↔
      (a.Kind.isSupported = false ∨ b.Kind.isSupported = false)) ∧
    (∀ a b : ValueExpr, LogicOr a b = none ↔
      (a.Kind.isSupported = false ∨ b.Kind.isSupported = false)) ∧
    (∀ t : Nat, LogicAnd (.int64 0) (.datetime t) = none ∧
      LogicAnd (.datetime t) (.int64 0) = none ∧
      LogicOr (.int64 1) (.datetime t) = none ∧
      LogicOr (.datetime t) (.int64 1) = none) := by
  refine ⟨convert_none_iff, fun t => rfl, convert_null_iff, ?_, ?_, ?_, ?_⟩
  · intro a hs hn
    cases h : ConvertToBoolOrNull a with
    | none =>
        rw [(convert_none_iff a).mp h] at hs
        exact absurd hs (by decide)
    | some x =>
        rcases convert_code a x h with rfl | rfl | rfl
        · exact absurd ((convert_null_iff a).mp h) hn
        · exact Or.inl rfl
        · exact Or.inr rfl
  · intro a b
    rw [← convert_none_iff a, ← convert_none_iff b]
    cases ha : ConvertToBoolOrNull a with
    | none => simp [LogicAnd, ha]
    | some x =>
        cases hb : ConvertToBoolOrNull b with
        | none => simp [LogicAnd, ha, hb]
        | some y => simp [LogicAnd_of_codes a b x y ha hb]
  · intro a b
    rw [← convert_none_iff a, ← convert_none_iff b]
    cases ha : ConvertToBoolOrNull a with
    | none => simp [LogicOr, ha]
    | some x =>
        cases hb : ConvertToBoolOrNull b with
        | none => simp [LogicOr, ha, hb]
        | some y => simp [LogicOr_of_codes a b x y ha hb]
  · intro t
    exact ⟨rfl, rfl, rfl, rfl⟩

/-- Instance of C14: a String is supported and not Null, so it converts to False or
True; here to True. -/
theorem convert_fails_iff_unsupported_witness :
    (ValueExpr.string "7").Kind.isSupported = true ∧
    (ValueExpr.string "7").Kind ≠ .KindNull ∧
    (ConvertToBoolOrNull (.string "7") = some 0 ∨
      ConvertToBoolOrNull (.string "7") = some 1) ∧
    ConvertToBoolOrNull (.string "7") = some 1 :=
  ⟨rfl, by decide,
    convert_fails_iff_unsupported.2.2.2.1 (.string "7") rfl (by decide), by decide⟩

/-- C15: each of the nine operators, on every pair of operands and for every host
comparison, either panics or returns True, False or Null with a nil error; no other
value and no non-nil error is ever returned. -/
theorem operator_result_boolean_or_null (cmp : ValueExpr → ValueExpr → Int × GoError)
    (a b : ValueExpr) :
    (∀ r : Option (ValueExpr × GoError),
      r ∈ [LogicAnd a b, LogicOr a b, LogicXor a b, Eq cmp a b, Ne cmp a b, Lt cmp a b,
        Le cmp a b, Gt cmp a b, Ge cmp a b] →
      r = none ∨ r = some (SetValue true, none) ∨ r = some (SetValue false, none) ∨
        r = some (SetNull, none)) ∧
    SetValue true = .int64 1 ∧ SetValue false = .int64 0 ∧ SetNull = .null := by
  have hbool : ∀ t : Bool, ∀ r : Option (ValueExpr × GoError),
      r = some (SetValue t, none) →
      r = none ∨ r = some (SetValue true, none) ∨ r = some (SetValue false, none) ∨
        r = some (SetNull, none) := by
    intro t r hr
    cases t
    · exact Or.inr (Or.inr (Or.inl hr))
    · exact Or.inr (Or.inl hr)
  have hrel : ∀ (p : Int → Bool) (r : Option (ValueExpr × GoError)),
      r = (if a.Kind = .KindNull ∨ b.Kind = .KindNull then some (SetNull, none)
        else (compare cmp a b).bind (fun c => some (SetValue (p c), none))) →
      r = none ∨ r = some (SetValue true, none) ∨ r = some (SetValue false, none) ∨
        r = some (SetNull, none) := by
    intro p r hr
    by_cases hk : a.Kind = .KindNull ∨ b.Kind = .KindNull
    · rw [if_pos hk] at hr
      exact Or.inr (Or.inr (Or.inr hr))
    · rw [if_neg hk] at hr
      cases hc : compare cmp a b with
      | none =>
          rw [hc] at hr
          exact Or.inl hr
      | some c =>
          rw [hc] at hr
          exact hbool (p c) r hr
  have hlogic : ∀ (r : Option (ValueExpr × GoError)) (f : Int → Int → ValueExpr),
      (∀ x y, f x y = SetValue true ∨ f x y = SetValue false ∨ f x y = SetNull) →
      (∀ x y, ConvertToBoolOrNull a = some x → ConvertToBoolOrNull b = some y →
        r = some (f x y, none)) →
      (ConvertToBoolOrNull a = none ∨ ConvertToBoolOrNull b = none →
        r = none ∨ r = some (SetNull, none)) →
      r = none ∨ r = some (SetValue true, none) ∨ r = some (SetValue false, none) ∨
        r = some (SetNull, none) := by
    intro r f hf hsome hnone
    cases ha : ConvertToBoolOrNull a with
    | none =>
        rcases hnone (Or.inl ha) with h | h
        · exact Or.inl h
        · exact Or.inr (Or.inr (Or.inr h))
    | some x =>
        cases hb : ConvertToBoolOrNull b with
        | none =>
            rcases hnone (Or.inr hb) with h | h
            · exact Or.inl h
            · exact Or.inr (Or.inr (Or.inr h))
        | some y =>
            have hr := hsome x y ha hb
            rcases hf x y with h | h | h
            · rw [h] at hr; exact Or.inr (Or.inl hr)
            · rw [h] at hr; exact Or.inr (Or.inr (Or.inl hr))
            · rw [h] at hr; exact Or.inr (Or.inr (Or.inr hr))
  refine ⟨?_, rfl, rfl, rfl⟩
  intro r hr
  simp only [List.mem_cons, List.mem_singleton, List.not_mem_nil, or_false] at hr
  rcases hr with rfl | rfl | rfl | rfl | rfl | rfl | rfl | rfl | rfl
  · refine hlogic _ (fun x y => if mulInt8 x y = 0 then SetValue false
      else if x = -1 ∨ y = -1 then SetNull else SetValue true) ?_
      (fun x y hx hy => LogicAnd_of_codes a b x y hx hy) ?_
    · intro x y
      by_cases h1 : mulInt8 x y = 0
      · simp [h1]
      · by_cases h2 : x = -1 ∨ y = -1 <;> simp [h1, h2]
    · rintro (h | h)
      · exact Or.inl (by simp [LogicAnd, h])
      · cases ha : ConvertToBoolOrNull a <;> exact Or.inl (by simp [LogicAnd, ha, h])
  · refine hlogic _ (fun x y => if x = 1 ∨ y = 1 then SetValue true
      else if x = -1 ∨ y = -1 then SetNull else SetValue false) ?_
      (fun x y hx hy => LogicOr_of_codes a b x y hx hy) ?_
    · intro x y
      by_cases h1 : x = 1 ∨ y = 1
      · simp [h1]
      · by_cases h2 : x = -1 ∨ y = -1 <;> simp [h1, h2]
    · rintro (h | h)
      · exact Or.inl (by simp [LogicOr, h])
      · cases ha : ConvertToBoolOrNull a <;> exact Or.inl (by simp [LogicOr, ha, h])
  · refine hlogic _ (fun x y => if x = -1 ∨ y = -1 then SetNull
      else SetValue (decide (x ≠ y))) ?_
      (fun x y hx hy => LogicXor_of_codes a b x y hx hy) ?_
    · intro x y
      show (if x = -1 ∨ y = -1 then SetNull else SetValue (decide (x ≠ y))) = SetValue true ∨
        (if x = -1 ∨ y = -1 then SetNull else SetValue (decide (x ≠ y))) = SetValue false ∨
        (if x = -1 ∨ y = -1 then SetNull else SetValue (decide (x ≠ y))) = SetNull
      by_cases h1 : x = -1 ∨ y = -1
      · rw [if_pos h1]
        exact Or.inr (Or.inr rfl)
      · rw [if_neg h1]
        cases decide (x ≠ y)
        · exact Or.inr (Or.inl rfl)
        · exact Or.inl rfl
    · intro h
      by_cases hk : a.Kind = .KindNull ∨ b.Kind = .KindNull
      · exact Or.inr (by simp [LogicXor, hk])
      · rcases h with h | h
        · exact Or.inl (by simp [LogicXor, hk, h])
        · cases ha : ConvertToBoolOrNull a <;> exact Or.inl (by simp [LogicXor, hk, ha, h])
  · exact hrel (fun c => decide (c = 0)) _ rfl
  · exact hrel (fun c => decide (c ≠ 0)) _ rfl
  · exact hrel (fun c => decide (c < 0)) _ rfl
  · exact hrel (fun c => decide (c ≤ 0)) _ rfl
  · exact hrel (fun c => decide (c > 0)) _ rfl
  · exact hrel (fun c => decide (c ≥ 0)) _ rfl

/-- Instance of C15: `Lt(3, 5)` on the host comparison is one of the nine calls and
is True; a datetime operand makes `LogicAnd` panic, which is the other case. -/
theorem operator_result_boolean_or_null_witness :
    Lt hostCompareDatum (.int64 3) (.int64 5) ∈
      [LogicAnd (.int64 3) (.int64 5), LogicOr (.int64 3) (.int64 5),
        LogicXor (.int64 3) (.int64 5), Eq hostCompareDatum (.int64 3) (.int64 5),
        Ne hostCompareDatum (.int64 3) (.int64 5), Lt hostCompareDatum (.int64 3) (.int64 5),
        Le hostCompareDatum (.int64 3) (.int64 5), Gt hostCompareDatum (.int64 3) (.int64 5),
        Ge hostCompareDatum (.int64 3) (.int64 5)] ∧
    (Lt hostCompareDatum (.int64 3) (.int64 5) = none ∨
      Lt hostCompareDatum (.int64 3) (.int64 5) = some (SetValue true, none) ∨
      Lt hostCompareDatum (.int64 3) (.int64 5) = some (SetValue false, none) ∨
      Lt hostCompareDatum (.int64 3) (.int64 5) = some (SetNull, none)) ∧
    Lt hostCompareDatum (.int64 3) (.int64 5) = some (SetValue true, none) :=
  ⟨by simp,
    (operator_result_boolean_or_null hostCompareDatum (.int64 3) (.int64 5)).1 _ (by simp),
    by decide⟩

/-! ## Relations between the relational operators -/

/-- C16: for operands of non-Null kinds on which `compare` returns, the five
operators `Lt`, `Eq`, `Gt`, `Le`, `Ge` return booleans of which exactly one of
`Lt`, `Eq`, `Gt` is True, `Le` is True exactly when `Lt` or `Eq` is, `Ge` is the
negation of `Lt` and `Le` is the negation of `Gt`. -/
theorem relational_trichotomy (cmp : ValueExpr → ValueExpr → Int × GoError)
    (a b : ValueExpr) (c : Int) (ha : a.Kind ≠ .KindNull) (hb : b.Kind ≠ .KindNull)
    (hc : compare cmp a b = some c) :
    ∃ lt eq gt le ge : Bool,
      Lt cmp a b = some (SetValue lt, none) ∧ Eq cmp a b = some (SetValue eq, none) ∧
      Gt cmp a b = some (SetValue gt, none) ∧ Le cmp a b = some (SetValue le, none) ∧
      Ge cmp a b = some (SetValue ge, none) ∧
      ((lt = true ∧ eq = false ∧ gt = false) ∨ (lt = false ∧ eq = true ∧ gt = false) ∨
        (lt = false ∧ eq = false ∧ gt = true)) ∧
      (le = true ↔ lt = true ∨ eq = true) ∧ ge = (!lt) ∧ le = (!gt) := by
  refine ⟨decide (c < 0), decide (c = 0), decide (c > 0), decide (c ≤ 0), decide (c ≥ 0),
    by simp [Lt, ha, hb, hc], by simp [Eq, ha, hb, hc], by simp [Gt, ha, hb, hc],
    by simp [Le, ha, hb, hc], by simp [Ge, ha, hb, hc], ?_, ?_, ?_, ?_⟩
  · rcases lt_trichotomy c 0 with h | h | h
    · exact Or.inl ⟨by simp [h], by simp; omega, by simp; omega⟩
    · exact Or.inr (Or.inl ⟨by simp [h], by simp [h], by simp [h]⟩)
    · exact Or.inr (Or.inr ⟨by simp; omega, by simp; omega, by simp [h]⟩)
  · simp only [decide_eq_true_eq]
    omega
  · rcases lt_trichotomy c 0 with h | h | h
    · have h2 : ¬ c ≥ 0 := by omega
      simp [h, h2]
    · simp [h]
    · have h2 : ¬ c < 0 := by omega
      have h3 : c ≥ 0 := by omega
      simp [h2, h3]
  · rcases lt_trichotomy c 0 with h | h | h
    · have h2 : ¬ c > 0 := by omega
      have h3 : c ≤ 0 := by omega
      simp [h2, h3]
    · simp [h]
    · have h2 : ¬ c ≤ 0 := by omega
      simp [h, h2]

/-- Instance of C16 on the host comparison: for `3` against `5` only `Lt` is True
among `Lt`, `Eq`, `Gt`. -/
theorem relational_trichotomy_witness :
    (ValueExpr.int64 3).Kind ≠ .KindNull ∧ (ValueExpr.int64 5).Kind ≠ .KindNull ∧
    compare hostCompareDatum (.int64 3) (.int64 5) = some (-1) ∧
    (∃ lt eq gt le ge : Bool,
      Lt hostCompareDatum (.int64 3) (.int64 5) = some (SetValue lt, none) ∧
      Eq hostCompareDatum (.int64 3) (.int64 5) = some (SetValue eq, none) ∧
      Gt hostCompareDatum (.int64 3) (.int64 5) = some (SetValue gt, none) ∧
      Le hostCompareDatum (.int64 3) (.int64 5) = some (SetValue le, none) ∧
      Ge hostCompareDatum (.int64 3) (.int64 5) = some (SetValue ge, none) ∧
      ((lt = true ∧ eq = false ∧ gt = false) ∨ (lt = false ∧ eq = true ∧ gt = false) ∨
        (lt = false ∧ eq = false ∧ gt = true)) ∧
      (le = true ↔ lt = true ∨ eq = true) ∧ ge = (!lt) ∧ le = (!gt)) :=
  ⟨by decide, by decide, by decide,
    relational_trichotomy hostCompareDatum (.int64 3) (.int64 5) (-1) (by decide) (by decide)
      (by decide)⟩

/-! ## Properties of the fallback -/

/-- A numeric kind is not the Null kind. -/
theorem numeric_ne_null (n : ValueExpr) (hn : n.Kind.isNumeric = true) :
    n.Kind ≠ .KindNull := by
  intro h
  rw [h] at hn
  exact absurd hn (by decide)

/-- The String kind is not the Null kind. -/
theorem string_ne_null (s : String) : (ValueExpr.string s).Kind ≠ .KindNull := by
  simp [ValueExpr.Kind]

/-- Go negation keeps zero and swaps the strict signs, away from the least `int`. -/
theorem negInt_sign (i : Int) (h1 : -(2 : Int) ^ 63 < i) (h2 : i < 2 ^ 63) :
    (negInt i < 0 ↔ i > 0) ∧ (negInt i > 0 ↔ i < 0) ∧ (negInt i = 0 ↔ i = 0) := by
  rw [negInt_eq_neg i h1 h2]
  omega

/-- C17: on the fallback path the content of the string is ignored: for a numeric
`n` and strings `s`, `t` whose direct comparison with `n` is undefined,
`compare(n, s)` and `compare(n, t)` coincide; when `n` compares Equal to zero,
`compare(n, s)` is Equal and `Eq(n, s)` is True; so for every host comparison that
compares Int64 by value, `Eq(Int64 0, String s)` is True for every such `s`. -/
theorem fallback_ignores_string :
    (∀ (cmp : ValueExpr → ValueExpr → Int × GoError) (n : ValueExpr) (s t : String),
      n.Kind.isNumeric = true → (cmp n (.string s)).2 ≠ none → (cmp n (.string t)).2 ≠ none →
        compare cmp n (.string s) = compare cmp n (.string t)) ∧
    (∀ (cmp : ValueExpr → ValueExpr → Int × GoError) (n : ValueExpr) (s : String),
      n.Kind.isNumeric = true → (cmp n (.string s)).2 ≠ none → cmp n (.int64 0) = (0, none) →
        compare cmp n (.string s) = some 0 ∧
        Eq cmp n (.string s) = some (SetValue true, none)) ∧
    (∀ (cmp : ValueExpr → ValueExpr → Int × GoError) (s : String),
      (∀ x y : Int, cmp (.int64 x) (.int64 y) = (CompareInt64 x y, none)) →
      (cmp (.int64 0) (.string s)).2 ≠ none →
        compare cmp (.int64 0) (.string s) = some 0 ∧
        Eq cmp (.int64 0) (.string s) = some (SetValue true, none)) := by
  have hzero : ∀ (cmp : ValueExpr → ValueExpr → Int × GoError) (n : ValueExpr) (s : String),
      n.Kind.isNumeric = true → (cmp n (.string s)).2 ≠ none → cmp n (.int64 0) = (0, none) →
        compare cmp n (.string s) = some 0 ∧
        Eq cmp n (.string s) = some (SetValue true, none) := by
    intro cmp n s hn h hz
    have hc : compare cmp n (.string s) = some 0 := by
      rw [compare_numeric_string cmp n _ h hn rfl, hz]
      rfl
    refine ⟨hc, ?_⟩
    have hk := numeric_ne_null n hn
    simp [Eq, hk, hc, string_ne_null s]
  refine ⟨?_, hzero, ?_⟩
  · intro cmp n s t hn hs ht
    rw [compare_numeric_string cmp n _ hs hn rfl, compare_numeric_string cmp n _ ht hn rfl]
  · intro cmp s hint h
    exact hzero cmp (.int64 0) s rfl h (by rw [hint]; rfl)

/-- Instance of C17 on the host comparison: `"abc"` and `"xyz"` give the same
ordering against `5`, and `Eq(0, "abc")` is True. -/
theorem fallback_ignores_string_witness :
    (hostCompareDatum (.int64 5) (.string "abc")).2 ≠ none ∧
    (hostCompareDatum (.int64 5) (.string "xyz")).2 ≠ none ∧
    compare hostCompareDatum (.int64 5) (.string "abc") =
      compare hostCompareDatum (.int64 5) (.string "xyz") ∧
    (hostCompareDatum (.int64 0) (.string "abc")).2 ≠ none ∧
    Eq hostCompareDatum (.int64 0) (.string "abc") = some (SetValue true, none) ∧
    Eq hostCompareDatum (.float64 (.fin true 0 0)) (.string "abc") =
      some (SetValue true, none) :=
  ⟨by decide, by decide,
    fallback_ignores_string.1 hostCompareDatum (.int64 5) "abc" "xyz" rfl (by decide)
      (by decide),
    by decide,
    (fallback_ignores_string.2.2 hostCompareDatum "abc" (fun _ _ => rfl) (by decide)).2,
    (fallback_ignores_string.2.1 hostCompareDatum (.float64 (.fin true 0 0)) "abc" rfl
      (by decide) (by decide)).2⟩

/-- C18: the fallback is antisymmetric: for a numeric `n` and a string `s` whose
direct comparison is undefined in both orders, with the host ordering of `n` against
zero not the least `int` (the host returns a sign), `compare(s, n)` is the negation
of `compare(n, s)`, and `Gt(n, s) = Lt(s, n)`, `Lt(n, s) = Gt(s, n)`,
`Eq(n, s) = Eq(s, n)`, failure included. -/
theorem fallback_antisymmetric (cmp : ValueExpr → ValueExpr → Int × GoError)
    (n : ValueExpr) (s : String) (hn : n.Kind.isNumeric = true)
    (h1 : (cmp n (.string s)).2 ≠ none) (h2 : (cmp (.string s) n).2 ≠ none)
    (hsign : -(2 : Int) ^ 63 < (cmp n (.int64 0)).1 ∧ (cmp n (.int64 0)).1 < 2 ^ 63) :
    compare cmp (.string s) n = (compare cmp n (.string s)).map (fun c => -c) ∧
    Gt cmp n (.string s) = Lt cmp (.string s) n ∧
    Lt cmp n (.string s) = Gt cmp (.string s) n ∧
    Eq cmp n (.string s) = Eq cmp (.string s) n := by
  have hk := numeric_ne_null n hn
  have hks := string_ne_null s
  have hns := compare_numeric_string cmp n (.string s) h1 hn rfl
  have hsn := compare_string_numeric cmp (.string s) n h2 rfl hn
  by_cases hz : (cmp n (.int64 0)).2 = none
  · rw [if_pos hz] at hns hsn
    obtain ⟨s1, s2, s3⟩ := negInt_sign _ hsign.1 hsign.2
    refine ⟨?_, ?_, ?_, ?_⟩
    · rw [hns, hsn, negInt_eq_neg _ hsign.1 hsign.2]
      rfl
    · simp only [Gt, Lt, hk, hks, hns, hsn, or_self, if_false,
        Option.bind_eq_bind, Option.some_bind]
      simp [s1]
    · simp only [Gt, Lt, hk, hks, hns, hsn, or_self, if_false,
        Option.bind_eq_bind, Option.some_bind]
      simp [s2]
    · simp only [Eq, hk, hks, hns, hsn, or_self, if_false,
        Option.bind_eq_bind, Option.some_bind]
      simp [s3]
  · rw [if_neg hz] at hns hsn
    refine ⟨?_, ?_, ?_, ?_⟩
    · rw [hns, hsn]
      rfl
    · simp [Gt, Lt, hk, hks, hns, hsn]
    · simp [Gt, Lt, hk, hks, hns, hsn]
    · simp [Eq, hk, hks, hns, hsn]

/-- Instance of C18 on the host comparison, for `5` against `"abc"`. -/
theorem fallback_antisymmetric_witness :
    (hostCompareDatum (.int64 5) (.string "abc")).2 ≠ none ∧
    (hostCompareDatum (.string "abc") (.int64 5)).2 ≠ none ∧
    (-(2 : Int) ^ 63 < (hostCompareDatum (.int64 5) (.int64 0)).1 ∧
      (hostCompareDatum (.int64 5) (.int64 0)).1 < 2 ^ 63) ∧
    compare hostCompareDatum (.int64 5) (.string "abc") = some 1 ∧
    compare hostCompareDatum (.string "abc") (.int64 5) = some (-1) ∧
    Gt hostCompareDatum (.int64 5) (.string "abc") =
      Lt hostCompareDatum (.string "abc") (.int64 5) :=
  ⟨by decide, by decide, by decide, by decide, by decide,
    (fallback_antisymmetric hostCompareDatum (.int64 5) "abc" rfl (by decide) (by decide)
      (by decide)).2.1⟩

/-! ## Prefix closure of string truthiness -/

/-- A String converts to True exactly when the pattern matches it. -/
theorem convert_string_one_iff (s : String) :
    ConvertToBoolOrNull (.string s) = some 1 ↔ LeadingNonZeroDigit s.toList := by
  rw [← matchString_truthyPattern_iff]
  cases h : MatchString truthyPattern s <;> simp [ConvertToBoolOrNull, h]

/-- A String converts to False exactly when the pattern does not match it. -/
theorem convert_string_zero_iff (s : String) :
    ConvertToBoolOrNull (.string s) = some 0 ↔ ¬ LeadingNonZeroDigit s.toList := by
  rw [← matchString_truthyPattern_iff]
  cases h : MatchString truthyPattern s <;> simp [ConvertToBoolOrNull, h]

/-- The reading in words survives appending text. -/
theorem leadingNonZeroDigit_append (s t : List Char) (h : LeadingNonZeroDigit s) :
    LeadingNonZeroDigit (s ++ t) := by
  obtain ⟨sign, body, hsign, ⟨k, d, rest, hd, rfl⟩, rfl⟩ := h
  exact ⟨sign, List.replicate k '0' ++ d :: (rest ++ t), hsign, ⟨k, d, rest ++ t, hd, rfl⟩,
    by simp⟩

/-- The reading in words forces the first character: a minus sign, a `0`, or a
non-zero digit. -/
theorem leadingNonZeroDigit_head (s : List Char) (h : LeadingNonZeroDigit s) :
    ∃ (c : Char) (rest : List Char), s = c :: rest ∧
      (c = '-' ∨ c = '0' ∨ ('1' ≤ c ∧ c ≤ '9')) := by
  rcases (leadingNonZeroDigit_iff s).mp h with hz | ⟨xs, rfl, _⟩
  · rcases (zerosThenDigit_iff s).mp hz with ⟨d, rest, hd, rfl⟩ | ⟨xs, rfl, _⟩
    · exact ⟨d, rest, rfl, Or.inr (Or.inr hd)⟩
    · exact ⟨'0', xs, rfl, Or.inr (Or.inl rfl)⟩
  · exact ⟨'-', xs, rfl, Or.inl rfl⟩

/-- C19: string truthiness depends only on a leading part: a String that converts to
True still does after any text is appended; and a String that is empty or starts
with a character other than `-`, `0` and `1`..`9` converts to False, as do `""`,
`" 5"` and `"+5"`. -/
theorem string_truthiness_leading :
    (∀ s t : String, ConvertToBoolOrNull (.string s) = some 1 →
      ConvertToBoolOrNull (.string (s ++ t)) = some 1) ∧
    (∀ s : String, s.toList = [] → ConvertToBoolOrNull (.string s) = some 0) ∧
    (∀ (s : String) (c : Char) (rest : List Char), s.toList = c :: rest →
      c ≠ '-' → c ≠ '0' → ¬ ('1' ≤ c ∧ c ≤ '9') →
        ConvertToBoolOrNull (.string s) = some 0) ∧
    ConvertToBoolOrNull (.string "") = some 0 ∧
    ConvertToBoolOrNull (.string " 5") = some 0 ∧
    ConvertToBoolOrNull (.string "+5") = some 0 := by
  refine ⟨?_, ?_, ?_, by decide, by decide, by decide⟩
  · intro s t h
    rw [convert_string_one_iff] at h ⊢
    have happ : (s ++ t).toList = s.toList ++ t.toList := by
      simp [String.toList]
    rw [happ]
    exact leadingNonZeroDigit_append _ _ h
  · intro s hs
    rw [convert_string_zero_iff, hs]
    intro h
    obtain ⟨c, rest, hcons, _⟩ := leadingNonZeroDigit_head _ h
    exact absurd hcons (by simp)
  · intro s c rest hs h1 h2 h3
    rw [convert_string_zero_iff, hs]
    intro h
    obtain ⟨c2, rest2, hcons, hc⟩ := leadingNonZeroDigit_head _ h
    simp only [List.cons.injEq] at hcons
    rw [← hcons.1] at hc
    rcases hc with hc | hc | hc
    · exact h1 hc
    · exact h2 hc
    · exact h3 hc

/-- Instance of C19: `"-07"` converts to True and still does with `"abc"` appended;
`"x1"` starts with another character and converts to False. -/
theorem string_truthiness_leading_witness :
    ConvertToBoolOrNull (.string "-07") = some 1 ∧
    ConvertToBoolOrNull (.string ("-07" ++ "abc")) = some 1 ∧
    ConvertToBoolOrNull (.string "x1") = some 0 :=
  ⟨by decide, string_truthiness_leading.1 "-07" "abc" (by decide),
    string_truthiness_leading.2.2.1 "x1" 'x' ['1'] rfl (by decide) (by decide) (by decide)⟩

/-! ## Associativity of the logical operators -/

/-- A stored True converts to the code True. -/
theorem convert_SetValue_true : ConvertToBoolOrNull (SetValue true) = some 1 := rfl

/-- A stored False converts to the code False. -/
theorem convert_SetValue_false : ConvertToBoolOrNull (SetValue false) = some 0 := rfl

/-- A stored Null converts to the code Null. -/
theorem convert_SetNull : ConvertToBoolOrNull SetNull = some (-1) := rfl

/-- A supported kind converts to some code. -/
theorem convert_of_supported (a : ValueExpr) (h : a.Kind.isSupported = true) :
    ∃ x : Int, ConvertToBoolOrNull a = some x := by
  cases hc : ConvertToBoolOrNull a with
  | none =>
      rw [(convert_none_iff a).mp hc] at h
      exact absurd h (by decide)
  | some x => exact ⟨x, rfl⟩

/-- C20: with the result of an operator fed back as an operand (True stored as the
integer `1`, False as `0`, Null as Null), `LogicAnd`, `LogicOr` and `LogicXor` are
associative on operands of supported kinds. -/
theorem logic_associative (a b c : ValueExpr) (ha : a.Kind.isSupported = true)
    (hb : b.Kind.isSupported = true) (hc : c.Kind.isSupported = true) :
    feedLeft (LogicAnd a b) LogicAnd c = feedRight a LogicAnd (LogicAnd b c) ∧
    feedLeft (LogicOr a b) LogicOr c = feedRight a LogicOr (LogicOr b c) ∧
    feedLeft (LogicXor a b) LogicXor c = feedRight a LogicXor (LogicXor b c) := by
  obtain ⟨x, hx⟩ := convert_of_supported a ha
  obtain ⟨y, hy⟩ := convert_of_supported b hb
  obtain ⟨z, hz⟩ := convert_of_supported c hc
  have hcx := convert_code a x hx
  have hcy := convert_code b y hy
  have hcz := convert_code c z hz
  refine ⟨?_, ?_, ?_⟩
  · have eab := LogicAnd_of_codes a b x y hx hy
    have ebc := LogicAnd_of_codes b c y z hy hz
    rcases hcx with rfl | rfl | rfl <;> rcases hcy with rfl | rfl | rfl <;>
      rcases hcz with rfl | rfl | rfl <;>
      simp [mulInt8] at eab ebc <;>
      simp [feedLeft, feedRight, eab, ebc, mulInt8,
        LogicAnd_of_codes _ c _ _ convert_SetValue_true hz,
        LogicAnd_of_codes _ c _ _ convert_SetValue_false hz,
        LogicAnd_of_codes _ c _ _ convert_SetNull hz,
        LogicAnd_of_codes a _ _ _ hx convert_SetValue_true,
        LogicAnd_of_codes a _ _ _ hx convert_SetValue_false,
        LogicAnd_of_codes a _ _ _ hx convert_SetNull]
  · have eab := LogicOr_of_codes a b x y hx hy
    have ebc := LogicOr_of_codes b c y z hy hz
    rcases hcx with rfl | rfl | rfl <;> rcases hcy with rfl | rfl | rfl <;>
      rcases hcz with rfl | rfl | rfl <;>
      simp at eab ebc <;>
      simp [feedLeft, feedRight, eab, ebc,
        LogicOr_of_codes _ c _ _ convert_SetValue_true hz,
        LogicOr_of_codes _ c _ _ convert_SetValue_false hz,
        LogicOr_of_codes _ c _ _ convert_SetNull hz,
        LogicOr_of_codes a _ _ _ hx convert_SetValue_true,
        LogicOr_of_codes a _ _ _ hx convert_SetValue_false,
        LogicOr_of_codes a _ _ _ hx convert_SetNull]
  · have eab := LogicXor_of_codes a b x y hx hy
    have ebc := LogicXor_of_codes b c y z hy hz
    rcases hcx with rfl | rfl | rfl <;> rcases hcy with rfl | rfl | rfl <;>
      rcases hcz with rfl | rfl | rfl <;>
      simp at eab ebc <;>
      simp [feedLeft, feedRight, eab, ebc,
        LogicXor_of_codes _ c _ _ convert_SetValue_true hz,
        LogicXor_of_codes _ c _ _ convert_SetValue_false hz,
        LogicXor_of_codes _ c _ _ convert_SetNull hz,
        LogicXor_of_codes a _ _ _ hx convert_SetValue_true,
        LogicXor_of_codes a _ _ _ hx convert_SetValue_false,
        LogicXor_of_codes a _ _ _ hx convert_SetNull]

/-- Instance of C20: with a False string, a Null and a True float, both groupings
of `LogicAnd` give False and both groupings of `LogicXor` give Null. -/
theorem logic_associative_witness :
    (ValueExpr.string "0").Kind.isSupported = true ∧
    ValueExpr.null.Kind.isSupported = true ∧
    (ValueExpr.float64 (.fin false 3 0)).Kind.isSupported = true ∧
    feedLeft (LogicAnd (.string "0") .null) LogicAnd (.float64 (.fin false 3 0)) =
      some (SetValue false, none) ∧
    feedLeft (LogicAnd (.string "0") .null) LogicAnd (.float64 (.fin false 3 0)) =
      feedRight (.string "0") LogicAnd (LogicAnd .null (.float64 (.fin false 3 0))) ∧
    feedLeft (LogicXor (.string "0") .null) LogicXor (.float64 (.fin false 3 0)) =
      feedRight (.string "0") LogicXor (LogicXor .null (.float64 (.fin false 3 0))) :=
  ⟨rfl, rfl, rfl, by decide,
    (logic_associative (.string "0") .null (.float64 (.fin false 3 0)) rfl rfl rfl).1,
    (logic_associative (.string "0") .null (.float64 (.fin false 3 0)) rfl rfl rfl).2.2⟩

end Pivot
